import Mathlib

/-!
Verification of the `@motioneffector/spatial` graph engine (`src/graph.ts`,
`src/direction.ts`, `src/errors.ts`).

The TypeScript source is shallowly embedded: JS `Map`s become insertion-ordered
association lists (JS `Map.set` updates an existing key in place and appends a
fresh key; iteration follows insertion order), thrown `ValidationError`s become
an explicit error component in each operation's result, and JS truthiness tests
on optional strings/booleans are spelled out (`undefined`/`""`/`false` falsy).
-/

set_option autoImplicit false

namespace Spatial

/-- Values stored in metadata bags (stand-in for the JS `unknown` payloads held
in `Record<string, unknown>` metadata). -/
inductive MetaValue where
  | str (s : String)
  | num (n : Int)
  | boolean (b : Bool)
  | null
deriving DecidableEq

/-- Insertion-ordered association list, modelling a JS `Map` (and the JS plain
objects used by the serializer, whose string keys also iterate in insertion
order). -/
abbrev SMap (α β : Type) := List (α × β)

/-- `Map.get` / object indexing: first entry with the given key. -/
def mapFind? {α β : Type} [DecidableEq α] : SMap α β → α → Option β
  | [], _ => none
  | (k', v) :: rest, k => if k' = k then some v else mapFind? rest k

/-- `Map.set` / object assignment: update in place if present, else append. -/
def mapSet {α β : Type} [DecidableEq α] : SMap α β → α → β → SMap α β
  | [], k, v => [(k, v)]
  | (k', v') :: rest, k, v =>
      if k' = k then (k, v) :: rest else (k', v') :: mapSet rest k v

/-- `Map.delete` / `delete obj[k]`: drop the entry with the given key. -/
def mapDelete {α β : Type} [DecidableEq α] : SMap α β → α → SMap α β
  | [], _ => []
  | (k', v) :: rest, k =>
      if k' = k then mapDelete rest k else (k', v) :: mapDelete rest k

/-- `Map.has`. -/
def mapContains {α β : Type} [DecidableEq α] (m : SMap α β) (k : α) : Bool :=
  (mapFind? m k).isSome

def mapKeys {α β : Type} (m : SMap α β) : List α :=
  m.map Prod.fst

/-- Key-preserving transformation of all values. -/
def mapVals {α β γ : Type} (h : α → β → γ) (m : SMap α β) : SMap α γ :=
  m.map (fun p => (p.1, h p.1 p.2))

section MapKeysVals

variable {α β γ : Type}

@[simp] theorem mapKeys_nil : mapKeys ([] : SMap α β) = [] := rfl

@[simp] theorem mapKeys_cons (k : α) (v : β) (rest : SMap α β) :
    mapKeys ((k, v) :: rest) = k :: mapKeys rest := rfl

@[simp] theorem mapVals_nil (h : α → β → γ) : mapVals h ([] : SMap α β) = [] := rfl

@[simp] theorem mapVals_cons (h : α → β → γ) (k : α) (v : β) (rest : SMap α β) :
    mapVals h ((k, v) :: rest) = (k, h k v) :: mapVals h rest := rfl

theorem mapKeys_mapVals (h : α → β → γ) (m : SMap α β) :
    mapKeys (mapVals h m) = mapKeys m := by
  induction m with
  | nil => rfl
  | cons p rest ih =>
    rcases p with ⟨k₀, v₀⟩
    rw [mapVals_cons, mapKeys_cons, mapKeys_cons, ih]

end MapKeysVals

section MapLemmas

variable {α β γ : Type} [DecidableEq α]

@[simp] theorem mapFind?_nil (k : α) : mapFind? ([] : SMap α β) k = none := rfl

theorem mapFind?_cons (k' k : α) (v : β) (rest : SMap α β) :
    mapFind? ((k', v) :: rest) k = if k' = k then some v else mapFind? rest k := rfl

@[simp] theorem mapFind?_set_self (m : SMap α β) (k : α) (v : β) :
    mapFind? (mapSet m k v) k = some v := by
  induction m with
  | nil => simp [mapSet, mapFind?]
  | cons p rest ih =>
    rcases p with ⟨k', v'⟩
    by_cases h : k' = k
    · simp [mapSet, h, mapFind?]
    · simp [mapSet, h, mapFind?, ih]

theorem mapFind?_set_ne (m : SMap α β) (k k' : α) (v : β) (h : k' ≠ k) :
    mapFind? (mapSet m k v) k' = mapFind? m k' := by
  have hkk : ¬ k = k' := fun he => h he.symm
  induction m with
  | nil => simp [mapSet, mapFind?, hkk]
  | cons p rest ih =>
    rcases p with ⟨k₀, v₀⟩
    by_cases h0 : k₀ = k
    · have h1 : ¬ k₀ = k' := by rw [h0]; exact hkk
      simp [mapSet, h0, mapFind?, hkk, h1]
    · by_cases h1 : k₀ = k'
      · simp [mapSet, h0, mapFind?, h1, h]
      · simp [mapSet, h0, mapFind?, h1, h, ih]

@[simp] theorem mapFind?_delete_self (m : SMap α β) (k : α) :
    mapFind? (mapDelete m k) k = none := by
  induction m with
  | nil => simp [mapDelete]
  | cons p rest ih =>
    rcases p with ⟨k₀, v₀⟩
    by_cases h : k₀ = k
    · simpa [mapDelete, h] using ih
    · simp [mapDelete, h, mapFind?, ih]

theorem mapFind?_delete_ne (m : SMap α β) (k k' : α) (h : k' ≠ k) :
    mapFind? (mapDelete m k) k' = mapFind? m k' := by
  have hkk : ¬ k = k' := fun he => h he.symm
  induction m with
  | nil => simp [mapDelete]
  | cons p rest ih =>
    rcases p with ⟨k₀, v₀⟩
    by_cases h0 : k₀ = k
    · have h1 : ¬ k₀ = k' := by rw [h0]; exact hkk
      simp [mapDelete, h0, mapFind?, h1, hkk, ih]
    · by_cases h1 : k₀ = k'
      · simp [mapDelete, h0, mapFind?, h1, h]
      · simp [mapDelete, h0, mapFind?, h1, h, ih]

theorem mem_of_mem_mapSet {m : SMap α β} {k : α} {v : β} {p : α × β}
    (h : p ∈ mapSet m k v) : p = (k, v) ∨ p ∈ m := by
  induction m with
  | nil => simpa [mapSet] using h
  | cons q rest ih =>
    rcases q with ⟨k₀, v₀⟩
    by_cases h0 : k₀ = k
    · simp [mapSet, h0] at h
      rcases h with h | h
      · exact Or.inl h
      · exact Or.inr (List.mem_cons_of_mem _ h)
    · simp only [mapSet, h0, if_false, List.mem_cons] at h
      rcases h with h | h
      · exact Or.inr (by simp [h])
      · rcases ih h with h' | h'
        · exact Or.inl h'
        · exact Or.inr (List.mem_cons_of_mem _ h')

theorem mem_of_mem_mapDelete {m : SMap α β} {k : α} {p : α × β}
    (h : p ∈ mapDelete m k) : p ∈ m := by
  induction m with
  | nil => simpa [mapDelete] using h
  | cons q rest ih =>
    rcases q with ⟨k₀, v₀⟩
    by_cases h0 : k₀ = k
    · simp only [mapDelete, h0, if_true] at h
      exact List.mem_cons_of_mem _ (ih h)
    · simp only [mapDelete, h0, if_false, List.mem_cons] at h
      rcases h with h | h
      · exact by simp [h]
      · exact List.mem_cons_of_mem _ (ih h)

theorem mem_mapKeys_of_mem_delete {m : SMap α β} {k a : α}
    (h : a ∈ mapKeys (mapDelete m k)) : a ∈ mapKeys m := by
  induction m with
  | nil => simpa [mapDelete] using h
  | cons q rest ih =>
    rcases q with ⟨k₀, v₀⟩
    by_cases h0 : k₀ = k
    · simp only [mapDelete, h0, if_true] at h
      exact by simp [ih h]
    · simp only [mapDelete, h0, if_false, mapKeys_cons, List.mem_cons] at h
      rcases h with h | h
      · simp [h]
      · simp [ih h]

theorem mapKeys_set (m : SMap α β) (k : α) (v : β) :
    mapKeys (mapSet m k v) =
      if k ∈ mapKeys m then mapKeys m else mapKeys m ++ [k] := by
  induction m with
  | nil => simp [mapSet]
  | cons p rest ih =>
    rcases p with ⟨k₀, v₀⟩
    by_cases h0 : k₀ = k
    · simp [mapSet, h0]
    · have hne : ¬ k = k₀ := fun he => h0 he.symm
      by_cases hm : k ∈ mapKeys rest
      · simp [mapSet, h0, hm, hne, ih]
      · simp [mapSet, h0, hm, hne, ih]

theorem nodup_mapKeys_set {m : SMap α β} (k : α) (v : β)
    (h : (mapKeys m).Nodup) : (mapKeys (mapSet m k v)).Nodup := by
  rw [mapKeys_set]
  by_cases hm : k ∈ mapKeys m
  · simpa [hm] using h
  · simp only [hm, if_false]
    simpa [List.nodup_append] using ⟨h, hm⟩

theorem nodup_mapKeys_delete {m : SMap α β} (k : α)
    (h : (mapKeys m).Nodup) : (mapKeys (mapDelete m k)).Nodup := by
  induction m with
  | nil => simpa [mapDelete] using h
  | cons q rest ih =>
    rcases q with ⟨k₀, v₀⟩
    rw [mapKeys_cons, List.nodup_cons] at h
    by_cases h0 : k₀ = k
    · simp only [mapDelete, h0, if_true]
      exact ih h.2
    · simp only [mapDelete, h0, if_false, mapKeys_cons, List.nodup_cons]
      exact ⟨fun hc => h.1 (mem_mapKeys_of_mem_delete hc), ih h.2⟩

theorem mem_of_mapFind?_eq_some {m : SMap α β} {k : α} {v : β}
    (h : mapFind? m k = some v) : (k, v) ∈ m := by
  induction m with
  | nil => simp [mapFind?] at h
  | cons p rest ih =>
    rcases p with ⟨k₀, v₀⟩
    by_cases h0 : k₀ = k
    · rw [mapFind?_cons, if_pos h0] at h
      rw [h0] at *
      simp at h
      simp [h]
    · rw [mapFind?_cons, if_neg h0] at h
      exact List.mem_cons_of_mem _ (ih h)

theorem mapFind?_eq_none_iff {m : SMap α β} {k : α} :
    mapFind? m k = none ↔ k ∉ mapKeys m := by
  induction m with
  | nil => simp
  | cons p rest ih =>
    rcases p with ⟨k₀, v₀⟩
    by_cases h0 : k₀ = k
    · rw [mapFind?_cons, if_pos h0, h0]
      simp
    · rw [mapFind?_cons, if_neg h0, mapKeys_cons]
      have : ¬ k = k₀ := fun he => h0 he.symm
      simp [ih, this]

theorem mapSet_eq_append {m : SMap α β} {k : α} (v : β)
    (h : k ∉ mapKeys m) : mapSet m k v = m ++ [(k, v)] := by
  induction m with
  | nil => simp [mapSet]
  | cons p rest ih =>
    rcases p with ⟨k₀, v₀⟩
    rw [mapKeys_cons, List.mem_cons] at h
    push_neg at h
    have h0 : ¬ k₀ = k := fun he => h.1 he.symm
    simp [mapSet, h0, ih h.2]

theorem mapDelete_eq_self {m : SMap α β} {k : α}
    (h : k ∉ mapKeys m) : mapDelete m k = m := by
  induction m with
  | nil => simp [mapDelete]
  | cons p rest ih =>
    rcases p with ⟨k₀, v₀⟩
    rw [mapKeys_cons, List.mem_cons] at h
    push_neg at h
    have h0 : ¬ k₀ = k := fun he => h.1 he.symm
    simp [mapDelete, h0, ih h.2]

theorem mapFind?_mapVals (h : α → β → γ) (m : SMap α β) (k : α) :
    mapFind? (mapVals h m) k = (mapFind? m k).map (h k) := by
  induction m with
  | nil => simp
  | cons p rest ih =>
    rcases p with ⟨k₀, v₀⟩
    by_cases h0 : k₀ = k
    · rw [mapVals_cons, mapFind?_cons, if_pos h0, mapFind?_cons, if_pos h0]
      simp [h0]
    · rw [mapVals_cons, mapFind?_cons, if_neg h0, mapFind?_cons, if_neg h0]
      exact ih

theorem mapFind?_append_left {m₁ m₂ : SMap α β} {k : α} {v : β}
    (h : mapFind? m₁ k = some v) : mapFind? (m₁ ++ m₂) k = some v := by
  induction m₁ with
  | nil => simp at h
  | cons p rest ih =>
    rcases p with ⟨k₀, v₀⟩
    by_cases h0 : k₀ = k
    · rw [mapFind?_cons, if_pos h0] at h
      rw [List.cons_append, mapFind?_cons, if_pos h0]
      exact h
    · rw [mapFind?_cons, if_neg h0] at h
      rw [List.cons_append, mapFind?_cons, if_neg h0]
      exact ih h

theorem mapFind?_append_right {m₁ m₂ : SMap α β} {k : α}
    (h : mapFind? m₁ k = none) : mapFind? (m₁ ++ m₂) k = mapFind? m₂ k := by
  induction m₁ with
  | nil => simp
  | cons p rest ih =>
    rcases p with ⟨k₀, v₀⟩
    by_cases h0 : k₀ = k
    · rw [mapFind?_cons, if_pos h0] at h
      simp at h
    · rw [mapFind?_cons, if_neg h0] at h
      rw [List.cons_append, mapFind?_cons, if_neg h0]
      exact ih h

end MapLemmas

/-! ## Data model (`src/types.ts`, `src/errors.ts`, `src/direction.ts`) -/

/-- Grid coordinates for a tile (`TilePosition`): `layer` is optional. -/
structure TilePosition where
  x : Int
  y : Int
  layer : Option Int
deriving DecidableEq

/-- Condition payload for conditional gates (types.ts `Condition`); its content
is opaque to the graph engine.  A condition value is a JS object, hence always
truthy when present. -/
structure Condition where
  payload : MetaValue
deriving DecidableEq

/-- Gate/door/barrier on a connection.  JS-optional fields are `Option`s. -/
structure Gate where
  id : String
  locked : Option Bool
  keyId : Option String
  condition : Option Condition
  hidden : Option Bool
  oneWay : Option Bool
  description : Option String
  blockedMessage : Option String
  metadata : Option (SMap String MetaValue)
deriving DecidableEq

/-- `Partial<Gate>` as passed to `updateGate`: `some` marks a present key. -/
structure GateUpdates where
  id : Option String
  locked : Option Bool
  keyId : Option String
  condition : Option Condition
  hidden : Option Bool
  oneWay : Option Bool
  description : Option String
  blockedMessage : Option String
  metadata : Option (SMap String MetaValue)
deriving DecidableEq

/-- Node data structure (`NodeData`). -/
structure NodeData where
  id : String
  metadata : SMap String MetaValue
  tiles : Option (List TilePosition)
  layer : Int
  zone : Option String
deriving DecidableEq

/-- Internal connection record (graph.ts `InternalConnection`). -/
structure InternalConnection where
  target : String
  direction : String
  gate : Option Gate
  cost : Int
  fromTile : Option TilePosition
  toTile : Option TilePosition
  bidirectional : Bool
deriving DecidableEq

/-- Connection data returned by `getConnection` and stored in serialized
snapshots (`ConnectionData`; its `gate` is `Gate | null`). -/
structure ConnectionData where
  target : String
  direction : String
  gate : Option Gate
  cost : Int
  fromTile : Option TilePosition
  toTile : Option TilePosition
deriving DecidableEq

/-- Exit information returned by `getExits`. -/
structure ExitInfo where
  direction : String
  target : String
  gate : Option Gate
  cost : Int
deriving DecidableEq

/-- Options bag for `createNode`: the declared `tiles`/`layer` fields plus the
arbitrary extra metadata keys of the `[key: string]: unknown` index
signature. -/
structure CreateNodeOptions where
  extra : SMap String MetaValue
  tiles : Option (List TilePosition)
  layer : Option Int
deriving DecidableEq

/-- Options bag for `connect`. -/
structure ConnectOptions where
  bidirectional : Option Bool
  cost : Option Int
  gate : Option Gate
  fromTile : Option TilePosition
  toTile : Option TilePosition
deriving DecidableEq

/-- Result of a traversal check (`TraversalResult`). -/
structure TraversalResult where
  allowed : Bool
  reason : Option String
  gateId : Option String
deriving DecidableEq

/-- Flag-evaluation collaborator (`flagStore` with `check`). -/
structure FlagStore where
  check : Condition → Bool

/-- Caller-supplied traversal context. -/
structure TraversalContext where
  inventory : Option (List String)
  discovered : Option (List String)
  flagStore : Option FlagStore

/-- Construction-time options captured by the `createSpatialGraph` closure:
the optional flag store and the optional traversal-override function.  These
are never mutated by graph operations, so they live outside `GraphState`. -/
structure GraphOptions where
  flagStore : Option FlagStore
  customCanTraverse : Option (ConnectionData → Option Gate → TraversalContext → TraversalResult)

/-- The mutable state of a spatial graph: node table, connection table and the
tile index (`"layer:x:y" -> nodeId`).  Event listeners are not modelled: no
claim observes them. -/
structure GraphState where
  nodes : SMap String NodeData
  connections : SMap String (SMap String InternalConnection)
  tileIndex : SMap String String
deriving DecidableEq

/-- A thrown `ValidationError` with its message. -/
inductive Err where
  | validation (msg : String)
deriving DecidableEq

def exceptToSum {ε α : Type} : Except ε α → Sum ε α
  | Except.error e => Sum.inl e
  | Except.ok a => Sum.inr a

instance {ε α : Type} [DecidableEq ε] [DecidableEq α] : DecidableEq (Except ε α) :=
  fun x y =>
    decidable_of_iff (exceptToSum x = exceptToSum y)
      (by cases x <;> cases y <;> simp [exceptToSum])

/-- Serialized snapshot (`SerializedGraph`). -/
structure SerializedGraph where
  nodes : SMap String NodeData
  connections : SMap String (SMap String ConnectionData)
deriving DecidableEq

def emptyGraph : GraphState := { nodes := [], connections := [], tileIndex := [] }

def defaultGraphOptions : GraphOptions := { flagStore := none, customCanTraverse := none }

def defaultContext : TraversalContext :=
  { inventory := none, discovered := none, flagStore := none }

def defaultCreateOpts : CreateNodeOptions := { extra := [], tiles := none, layer := none }

def defaultConnectOpts : ConnectOptions :=
  { bidirectional := none, cost := none, gate := none, fromTile := none, toTile := none }

/-- The built-in direction/opposite registry (`src/direction.ts` `opposites`,
a `Map`).  Directions are runtime strings; unregistered strings have no
opposite (`opposites.get(direction) ?? null`). -/
def oppositePairs : SMap String String :=
  [("NORTH", "SOUTH"), ("SOUTH", "NORTH"), ("EAST", "WEST"), ("WEST", "EAST"),
   ("NORTHEAST", "SOUTHWEST"), ("SOUTHWEST", "NORTHEAST"),
   ("NORTHWEST", "SOUTHEAST"), ("SOUTHEAST", "NORTHWEST"),
   ("UP", "DOWN"), ("DOWN", "UP"), ("IN", "OUT"), ("OUT", "IN")]

def DirOpposite (d : String) : Option String := mapFind? oppositePairs d

/-- JS truthiness of an optional string (`undefined` and `""` are falsy). -/
def strTruthy : Option String → Bool
  | none => false
  | some s => s != ""

/-- JS truthiness of an optional boolean. -/
def boolTruthy (o : Option Bool) : Bool := o.getD false

def FORBIDDEN_KEYS : List String := ["__proto__", "constructor", "prototype"]

/-- `safeCopy`: copy an object's own keys, skipping the forbidden ones. -/
def safeCopy (m : SMap String MetaValue) : SMap String MetaValue :=
  m.filter (fun p => decide (p.1 ∉ FORBIDDEN_KEYS))

/-- Tile key `"layer:x:y"`. -/
def tileKey (x y layer : Int) : String :=
  toString layer ++ ":" ++ toString x ++ ":" ++ toString y

/-! ## Node management (`graph.ts`) -/

/-- Tile normalization performed by `createNode`: fill in a missing tile layer
from the node's layer. -/
def normalizeTile (layer : Int) (t : TilePosition) : TilePosition :=
  { x := t.x, y := t.y, layer := some (t.layer.getD layer) }

def createNode (g : GraphState) (id : String) (opts : CreateNodeOptions) :
    GraphState × Option Err :=
  if id = "" then (g, some (Err.validation "Node id cannot be empty"))
  else if mapContains g.nodes id then
    (g, some (Err.validation ("Node with id \"" ++ id ++ "\" already exists")))
  else
    let layer := opts.layer.getD 1
    -- `safeCopy({ ...opts })` followed by `delete metadata.tiles; delete metadata.layer`
    let metadata := mapDelete (mapDelete (safeCopy opts.extra) "tiles") "layer"
    let tiles := opts.tiles.map (List.map (normalizeTile layer))
    let nodeData : NodeData :=
      { id := id, metadata := metadata, tiles := tiles, layer := layer, zone := none }
    let tileIndex :=
      match tiles with
      | none => g.tileIndex
      | some ts =>
          ts.foldl (fun ti t => mapSet ti (tileKey t.x t.y (t.layer.getD layer)) id) g.tileIndex
    ({ nodes := mapSet g.nodes id nodeData, connections := g.connections,
       tileIndex := tileIndex }, none)

def getNode (g : GraphState) (id : String) : Option NodeData :=
  mapFind? g.nodes id

def removeNode (g : GraphState) (id : String) : GraphState × Except Err NodeData :=
  match mapFind? g.nodes id with
  | none => (g, Except.error (Err.validation ("Node \"" ++ id ++ "\" does not exist")))
  | some node =>
    let tileIndex :=
      match node.tiles with
      | none => g.tileIndex
      | some ts =>
          ts.foldl (fun ti t => mapDelete ti (tileKey t.x t.y (t.layer.getD node.layer)))
            g.tileIndex
    -- `connections.delete(id)`, then drop every connection whose target is `id`
    let connections :=
      mapVals (fun _ im => im.filter (fun q => q.2.target ≠ id)) (mapDelete g.connections id)
    ({ nodes := mapDelete g.nodes id, connections := connections, tileIndex := tileIndex },
     Except.ok node)

/-! ## Connection management -/

/-- `if (!connections.has(from)) connections.set(from, new Map());
connections.get(from)?.set(direction, connection)` -/
def setConn (conns : SMap String (SMap String InternalConnection)) (frm dir : String)
    (c : InternalConnection) : SMap String (SMap String InternalConnection) :=
  match mapFind? conns frm with
  | some im => mapSet conns frm (mapSet im dir c)
  | none => mapSet conns frm (mapSet [] dir c)

def connect (g : GraphState) (frm dir tgt : String) (opts : ConnectOptions) :
    GraphState × Option Err :=
  if !mapContains g.nodes frm then
    (g, some (Err.validation ("Source node \"" ++ frm ++ "\" does not exist")))
  else if !mapContains g.nodes tgt then
    (g, some (Err.validation ("Target node \"" ++ tgt ++ "\" does not exist")))
  else
    let bidirectional := opts.bidirectional.getD true
    let cost := opts.cost.getD 1
    let connection : InternalConnection :=
      { target := tgt, direction := dir, gate := opts.gate, cost := cost,
        fromTile := opts.fromTile, toTile := opts.toTile, bidirectional := bidirectional }
    let conns1 := setConn g.connections frm dir connection
    if bidirectional then
      match DirOpposite dir with
      | none => ({ g with connections := conns1 }, none)
      | some opp =>
        -- Only create the reverse edge if it does not already exist
        match (mapFind? conns1 tgt).bind (fun im => mapFind? im opp) with
        | some _ => ({ g with connections := conns1 }, none)
        | none =>
          let reverseConnection : InternalConnection :=
            { target := frm, direction := opp, gate := opts.gate, cost := cost,
              fromTile := opts.toTile, toTile := opts.fromTile, bidirectional := false }
          ({ g with connections := setConn conns1 tgt opp reverseConnection }, none)
    else ({ g with connections := conns1 }, none)

def disconnect (g : GraphState) (frm dir : String) (optBidi : Option Bool) :
    GraphState × Option Err :=
  if !mapContains g.nodes frm then
    (g, some (Err.validation ("Node \"" ++ frm ++ "\" does not exist")))
  else
    match mapFind? g.connections frm with
    | none => (g, none)
    | some im =>
      match mapFind? im dir with
      | none => (g, none)
      | some connection =>
        let conns1 := mapSet g.connections frm (mapDelete im dir)
        let bidirectional := optBidi.getD connection.bidirectional
        -- `if (bidirectional && connection.target)`: target "" is falsy
        if bidirectional ∧ connection.target ≠ "" then
          match DirOpposite dir with
          | none => ({ g with connections := conns1 }, none)
          | some opp =>
            match mapFind? conns1 connection.target with
            | none => ({ g with connections := conns1 }, none)
            | some tm =>
              if mapContains tm opp then
                ({ g with connections :=
                     mapSet conns1 connection.target (mapDelete tm opp) }, none)
              else ({ g with connections := conns1 }, none)
        else ({ g with connections := conns1 }, none)

def getConnection (g : GraphState) (frm dir : String) : Option ConnectionData :=
  match (mapFind? g.connections frm).bind (fun im => mapFind? im dir) with
  | none => none
  | some c =>
      some { target := c.target, direction := dir, gate := c.gate, cost := c.cost,
             fromTile := c.fromTile, toTile := c.toTile }

def getExits (g : GraphState) (nodeId : String) : Except Err (List ExitInfo) :=
  if !mapContains g.nodes nodeId then
    Except.error (Err.validation ("Node \"" ++ nodeId ++ "\" does not exist"))
  else
    match mapFind? g.connections nodeId with
    | none => Except.ok []
    | some im =>
        Except.ok (im.map (fun q =>
          { direction := q.1, target := q.2.target, gate := q.2.gate, cost := q.2.cost }))

/-! ## Gate system -/

def setGate (g : GraphState) (frm dir : String) (gate : Gate) : GraphState × Option Err :=
  let err := Err.validation
    ("Connection from \"" ++ frm ++ "\" in direction \"" ++ dir ++ "\" does not exist")
  match mapFind? g.connections frm with
  | none => (g, some err)
  | some im =>
    match mapFind? im dir with
    | none => (g, some err)
    | some c =>
        ({ g with connections :=
             mapSet g.connections frm (mapSet im dir { c with gate := some gate }) }, none)

/-- Field-wise overwrite of a gate by a `Partial<Gate>`. -/
def mergeGate (g : Gate) (u : GateUpdates) : Gate :=
  { id := u.id.getD g.id
    locked := match u.locked with | some b => some b | none => g.locked
    keyId := match u.keyId with | some s => some s | none => g.keyId
    condition := match u.condition with | some c => some c | none => g.condition
    hidden := match u.hidden with | some b => some b | none => g.hidden
    oneWay := match u.oneWay with | some b => some b | none => g.oneWay
    description := match u.description with | some s => some s | none => g.description
    blockedMessage := match u.blockedMessage with | some s => some s | none => g.blockedMessage
    metadata := match u.metadata with | some m => some m | none => g.metadata }

def updateGate (g : GraphState) (frm dir : String) (updates : GateUpdates) :
    GraphState × Option Err :=
  let err := Err.validation
    ("Gate on connection from \"" ++ frm ++ "\" in direction \"" ++ dir ++ "\" does not exist")
  match mapFind? g.connections frm with
  | none => (g, some err)
  | some im =>
    match mapFind? im dir with
    | none => (g, some err)
    | some c =>
      match c.gate with
      | none => (g, some err)
      | some gt =>
          let im2 := mapSet im dir { c with gate := some (mergeGate gt updates) }
          ({ g with connections := mapSet g.connections frm im2 }, none)

/-- `removeGate` only acts when a gate is present; it never throws. -/
def removeGate (g : GraphState) (frm dir : String) : GraphState × Option Err :=
  match mapFind? g.connections frm with
  | none => (g, none)
  | some im =>
    match mapFind? im dir with
    | none => (g, none)
    | some c =>
      match c.gate with
      | none => (g, none)
      | some _ =>
          ({ g with connections :=
               mapSet g.connections frm (mapSet im dir { c with gate := none }) }, none)

def getGate (g : GraphState) (frm dir : String) : Option Gate :=
  ((mapFind? g.connections frm).bind (fun im => mapFind? im dir)).bind (fun c => c.gate)

/-! ## Zones -/

def setZone (g : GraphState) (nodeId zoneId : String) : GraphState × Option Err :=
  match mapFind? g.nodes nodeId with
  | none => (g, some (Err.validation ("Node \"" ++ nodeId ++ "\" does not exist")))
  | some node =>
      ({ g with nodes := mapSet g.nodes nodeId { node with zone := some zoneId } }, none)

def getZone (g : GraphState) (nodeId : String) : Option String :=
  (mapFind? g.nodes nodeId).bind (fun nd => nd.zone)

def getNodesInZone (g : GraphState) (zoneId : String) : List String :=
  (g.nodes.filter (fun p => p.2.zone = some zoneId)).map Prod.fst

def removeZone (g : GraphState) (nodeId : String) : GraphState :=
  match mapFind? g.nodes nodeId with
  | none => g
  | some node => { g with nodes := mapSet g.nodes nodeId { node with zone := none } }

/-! ## Traversal -/

/-- `gate.keyId && context.inventory?.includes(gate.keyId)`: note that an
empty-string key id is falsy in JS. -/
def keyHeld (keyId : Option String) (inventory : Option (List String)) : Bool :=
  match keyId with
  | none => false
  | some k => (k != "") && (inventory.getD []).contains k

def allowedResult : TraversalResult :=
  { allowed := true, reason := none, gateId := none }

def defaultCanTraverse (go : GraphOptions) (connection : ConnectionData)
    (gate : Option Gate) (context : TraversalContext) : TraversalResult :=
  match gate with
  | none => allowedResult
  | some gate =>
    -- hidden and not discovered
    if boolTruthy gate.hidden && !((context.discovered.getD []).contains gate.id) then
      { allowed := false, reason := some "hidden", gateId := some gate.id }
    else if boolTruthy gate.locked then
      if keyHeld gate.keyId context.inventory then allowedResult
      else { allowed := false, reason := some "locked", gateId := some gate.id }
    else
      match gate.condition with
      | none => allowedResult
      | some cond =>
        -- `context.flagStore ?? flagStore`
        match context.flagStore with
        | some store =>
          if store.check cond then allowedResult
          else { allowed := false, reason := some (gate.blockedMessage.getD "blocked"),
                 gateId := some gate.id }
        | none =>
          match go.flagStore with
          | none =>
              { allowed := false, reason := some (gate.blockedMessage.getD "blocked"),
                gateId := some gate.id }
          | some store =>
            if store.check cond then allowedResult
            else { allowed := false, reason := some (gate.blockedMessage.getD "blocked"),
                   gateId := some gate.id }

def canTraverse (go : GraphOptions) (g : GraphState) (frm dir : String)
    (context : TraversalContext) : TraversalResult :=
  match getConnection g frm dir with
  | none => { allowed := false, reason := some "no connection", gateId := none }
  | some connection =>
    match go.customCanTraverse with
    | some fn => fn connection connection.gate context
    | none => defaultCanTraverse go connection connection.gate context

/-! ## Pathfinding (Dijkstra with an array queue re-sorted each iteration) -/

structure QEntry where
  node : String
  cost : Int
deriving DecidableEq

def insertByCost (x : QEntry) : List QEntry → List QEntry
  | [] => [x]
  | y :: ys => if y.cost ≤ x.cost then y :: insertByCost x ys else x :: y :: ys

/-- `queue.sort((a, b) => a.cost - b.cost)`: JS `Array.sort` is stable; a
left-to-right stable insertion sort. -/
def sortByCost (l : List QEntry) : List QEntry :=
  l.foldl (fun acc x => insertByCost x acc) []

def getPathLengthAux (previous : SMap String String) : Nat → String → Nat → Nat
  | 0, _, acc => acc
  | fuel + 1, cur, acc =>
    match mapFind? previous cur with
    | none => acc
    | some p => getPathLengthAux previous fuel p (acc + 1)

/-- Number of hops recorded in `previous` behind `node` (`getPathLength`).
The JS `while` loop is given fuel: one more than the size of `previous`
always suffices for the acyclic predecessor chains Dijkstra builds. -/
def getPathLength (previous : SMap String String) (node : String) : Nat :=
  getPathLengthAux previous (previous.length + 1) node 0

def reconstructAux (previous : SMap String String) : Nat → String → List String → List String
  | 0, node, acc => node :: acc
  | fuel + 1, node, acc =>
    match mapFind? previous node with
    | none => node :: acc
    | some p => reconstructAux previous fuel p (node :: acc)

/-- Path reconstruction: `while (node) { path.unshift(node); node = previous.get(node) }`. -/
def reconstructPath (previous : SMap String String) (tgt : String) : List String :=
  reconstructAux previous (previous.length + 1) tgt []

/-- `pathLength > maxLength` where `maxLength` defaults to `Infinity`. -/
def exceedsMax (n : Nat) (maxLength : Option Nat) : Bool :=
  match maxLength with
  | none => false
  | some m => decide (n > m)

/-- Processing of a single exit inside the Dijkstra loop (shared verbatim by
`findPath` and `getDistance` in the source). -/
def processExit (go : GraphOptions) (g : GraphState) (context : TraversalContext)
    (avoidLocked : Bool) (maxLength : Option Nat) (curNode : String) (curCost : Int)
    (visited : List String) (st : List QEntry × SMap String Int × SMap String String)
    (exit : ExitInfo) : List QEntry × SMap String Int × SMap String String :=
  let result := canTraverse go g curNode exit.direction context
  if !result.allowed && !avoidLocked then st
  else if !result.allowed && avoidLocked then st
  else
    let newCost := curCost + exit.cost
    let currentDist := mapFind? st.2.1 exit.target
    let pathLength := getPathLength st.2.2 curNode + 2
    if exceedsMax pathLength maxLength then st
    else
      let improved :=
        match currentDist with
        | none => true
        | some d => decide (newCost < d)
      if improved then
        let distances := mapSet st.2.1 exit.target newCost
        let previous := mapSet st.2.2 exit.target curNode
        let queue :=
          if visited.contains exit.target then st.1
          else st.1 ++ [{ node := exit.target, cost := newCost }]
        (queue, distances, previous)
      else st

/-- The relaxation of all exits of the current node (the `for (const exit of
exits)` loop body shared verbatim by `findPath` and `getDistance`). -/
def relaxExits (go : GraphOptions) (g : GraphState) (context : TraversalContext)
    (avoidLocked : Bool) (maxLength : Option Nat) (curNode : String) (curCost : Int)
    (visited1 : List String) (exits : List ExitInfo)
    (rest : List QEntry) (distances : SMap String Int) (previous : SMap String String) :
    List QEntry × SMap String Int × SMap String String :=
  exits.foldl (processExit go g context avoidLocked maxLength curNode curCost visited1)
    (rest, distances, previous)

def findPathLoop (go : GraphOptions) (g : GraphState) (tgt : String)
    (maxLength : Option Nat) (context : TraversalContext) (avoidLocked : Bool) :
    Nat → List QEntry → List String → SMap String Int → SMap String String →
      Except Err (Option (List String))
  | 0, _, _, _, _ => Except.ok none
  | fuel + 1, queue, visited, distances, previous =>
    match sortByCost queue with
    | [] => Except.ok none
    | current :: rest =>
      if visited.contains current.node then
        findPathLoop go g tgt maxLength context avoidLocked fuel rest visited distances previous
      else
        if current.node = tgt then
          Except.ok (some (reconstructPath previous tgt))
        else
          match getExits g current.node with
          | Except.error e => Except.error e
          | Except.ok exits =>
            findPathLoop go g tgt maxLength context avoidLocked fuel
              (relaxExits go g context avoidLocked maxLength current.node current.cost
                (visited ++ [current.node]) exits rest distances previous).1
              (visited ++ [current.node])
              (relaxExits go g context avoidLocked maxLength current.node current.cost
                (visited ++ [current.node]) exits rest distances previous).2.1
              (relaxExits go g context avoidLocked maxLength current.node current.cost
                (visited ++ [current.node]) exits rest distances previous).2.2

def totalConnections (g : GraphState) : Nat :=
  g.connections.foldl (fun n p => n + p.2.length) 0

/-- `findPath`.  The `while (queue.length > 0)` loop is given fuel
`totalConnections + 2`: the queue receives at most one initial entry plus one
entry per edge relaxation, and each expanded node relaxes its exits once. -/
def findPath (go : GraphOptions) (g : GraphState) (frm tgt : String)
    (maxLength : Option Nat) (context : TraversalContext) (avoidLocked : Bool) :
    Except Err (Option (List String)) :=
  if frm = tgt then Except.ok (some [frm])
  else
    findPathLoop go g tgt maxLength context avoidLocked (totalConnections g + 2)
      [{ node := frm, cost := 0 }] [] (mapSet [] frm 0) []

def getDistanceLoop (go : GraphOptions) (g : GraphState) (tgt : String)
    (maxLength : Option Nat) (context : TraversalContext) (avoidLocked : Bool) :
    Nat → List QEntry → List String → SMap String Int → SMap String String →
      Except Err (Option Int)
  | 0, _, _, _, _ => Except.ok none
  | fuel + 1, queue, visited, distances, previous =>
    match sortByCost queue with
    | [] => Except.ok none
    | current :: rest =>
      if visited.contains current.node then
        getDistanceLoop go g tgt maxLength context avoidLocked fuel rest visited distances previous
      else
        if current.node = tgt then
          Except.ok (some current.cost)
        else
          match getExits g current.node with
          | Except.error e => Except.error e
          | Except.ok exits =>
            getDistanceLoop go g tgt maxLength context avoidLocked fuel
              (relaxExits go g context avoidLocked maxLength current.node current.cost
                (visited ++ [current.node]) exits rest distances previous).1
              (visited ++ [current.node])
              (relaxExits go g context avoidLocked maxLength current.node current.cost
                (visited ++ [current.node]) exits rest distances previous).2.1
              (relaxExits go g context avoidLocked maxLength current.node current.cost
                (visited ++ [current.node]) exits rest distances previous).2.2

/-- `getDistance`: cumulative cost, `none` standing for the JS `Infinity`. -/
def getDistance (go : GraphOptions) (g : GraphState) (frm tgt : String)
    (maxLength : Option Nat) (context : TraversalContext) (avoidLocked : Bool) :
    Except Err (Option Int) :=
  if frm = tgt then Except.ok (some 0)
  else
    getDistanceLoop go g tgt maxLength context avoidLocked (totalConnections g + 2)
      [{ node := frm, cost := 0 }] [] (mapSet [] frm 0) []

/-! ## Serialization -/

/-- Snapshot of one internal connection (`serialize`'s per-connection object;
the `direction` written is the map key). -/
def serializeConn (dir : String) (c : InternalConnection) : ConnectionData :=
  { target := c.target, direction := dir, gate := c.gate, cost := c.cost,
    fromTile := c.fromTile, toTile := c.toTile }

/-- `serialize()`: node snapshots are `{ ...node }` copies in iteration order;
the `bidirectional` flag is not exported. -/
def serialize (g : GraphState) : SerializedGraph :=
  { nodes := g.nodes,
    connections := mapVals (fun _ im => mapVals serializeConn im) g.connections }

/-- Restoring one serialized connection: `bidirectional` is hard-coded to
`false`.  `cost ?? 1` and the truthiness guards on `gate`/`fromTile`/`toTile`
are identities on well-typed snapshots (cost always present, objects truthy). -/
def deserializeConn (dir : String) (c : ConnectionData) : InternalConnection :=
  { target := c.target, direction := dir, gate := c.gate, cost := c.cost,
    fromTile := c.fromTile, toTile := c.toTile, bidirectional := false }

/-- The `CreateNodeOptions` rebuilt by `deserialize` for one node snapshot:
`{ ...safeCopy(nodeData.metadata), layer: nodeData.layer }` plus `tiles` when
truthy (arrays are always truthy). -/
def nodeCreateOpts (nd : NodeData) : CreateNodeOptions :=
  { extra := safeCopy nd.metadata, tiles := nd.tiles, layer := some nd.layer }

/-- Node-restoration loop of `deserialize`: `createNode` re-runs validation, a
truthy `zone` is restored via `setZone`; a thrown error leaves the partially
rebuilt state behind. -/
def deserializeNodes (g : GraphState) : List (String × NodeData) → GraphState × Option Err
  | [] => (g, none)
  | (id, nd) :: rest =>
    match createNode g id (nodeCreateOpts nd) with
    | (g1, some e) => (g1, some e)
    | (g1, none) =>
      if strTruthy nd.zone then
        match setZone g1 id (nd.zone.getD "") with
        | (g2, some e) => (g2, some e)
        | (g2, none) => deserializeNodes g2 rest
      else deserializeNodes g1 rest

/-- Connection-restoration loop of `deserialize` (no validation). -/
def deserializeConns (conns : SMap String (SMap String InternalConnection)) :
    List (String × SMap String ConnectionData) → SMap String (SMap String InternalConnection)
  | [] => conns
  | (frm, im) :: rest =>
      deserializeConns
        (im.foldl (fun acc q => setConn acc frm q.1 (deserializeConn q.1 q.2)) conns) rest

/-- `deserialize(data)`: clears all state first (before any validation), then
restores nodes and connections.  The runtime `!rawData.nodes` check cannot
fire for well-typed data and is not represented. -/
def deserialize (g : GraphState) (data : SerializedGraph) : GraphState × Option Err :=
  match deserializeNodes { nodes := [], connections := [], tileIndex := [] } data.nodes with
  | (g1, some e) => (g1, some e)
  | (g1, none) =>
      ({ g1 with connections := deserializeConns g1.connections data.connections }, none)

/-! ## General helper notions and lemmas -/

/-- Internal connection stored at `(from, direction)`. -/
def connAt (g : GraphState) (frm dir : String) : Option InternalConnection :=
  (mapFind? g.connections frm).bind (fun im => mapFind? im dir)

theorem DirOpposite_ne {d e : String} (h : DirOpposite d = some e) : d ≠ e := by
  have hmem := mem_of_mapFind?_eq_some h
  have hall : ∀ p ∈ oppositePairs, p.1 ≠ p.2 := by decide
  exact hall (d, e) hmem

theorem connAt_setConn (conns : SMap String (SMap String InternalConnection))
    (f d : String) (c : InternalConnection) (f2 d2 : String) :
    (mapFind? (setConn conns f d c) f2).bind (fun im => mapFind? im d2) =
      if f2 = f ∧ d2 = d then some c
      else (mapFind? conns f2).bind (fun im => mapFind? im d2) := by
  unfold setConn
  cases hfind : mapFind? conns f with
  | some im =>
    by_cases hf : f2 = f
    · subst hf
      by_cases hd : d2 = d
      · subst hd; simp [hfind, mapFind?_set_self]
      · simp [hfind, mapFind?_set_self, mapFind?_set_ne _ _ _ _ hd, hd]
    · simp [hfind, mapFind?_set_ne _ _ _ _ hf, hf]
  | none =>
    by_cases hf : f2 = f
    · subst hf
      by_cases hd : d2 = d
      · subst hd; simp [hfind, mapFind?_set_self]
      · simp [hfind, mapFind?_set_self, mapFind?_set_ne _ _ _ _ hd, hd]
    · simp [hfind, mapFind?_set_ne _ _ _ _ hf, hf]

theorem getConnection_eq_none_iff (g : GraphState) (frm dir : String) :
    getConnection g frm dir = none ↔ connAt g frm dir = none := by
  unfold getConnection connAt
  cases (mapFind? g.connections frm).bind (fun im => mapFind? im dir) <;> simp

/-! ## Claim C1 -/

/-- The concrete graph of claim C1: nodes a, b, c, d with directed edges
a→b (cost 1), b→d (cost 1), a→c (cost 5), c→d (cost 1), built through the
public API (the default-bidirectional mirrors are also created, as they are in
any API-built instance of this shape). -/
def c1Graph : GraphState :=
  let g := emptyGraph
  let g := (createNode g "a" defaultCreateOpts).1
  let g := (createNode g "b" defaultCreateOpts).1
  let g := (createNode g "c" defaultCreateOpts).1
  let g := (createNode g "d" defaultCreateOpts).1
  let g := (connect g "a" "NORTH" "b" { defaultConnectOpts with cost := some 1 }).1
  let g := (connect g "b" "NORTH" "d" { defaultConnectOpts with cost := some 1 }).1
  let g := (connect g "a" "EAST" "c" { defaultConnectOpts with cost := some 5 }).1
  let g := (connect g "c" "NORTH" "d" { defaultConnectOpts with cost := some 1 }).1
  g

/-- C1: Dijkstra optimality of findPath: in a graph with nodes a, b, c, d and
directed edges a→b (cost 1), b→d (cost 1), a→c (cost 5), c→d (cost 1),
`findPath('a','d')` returns `['a','b','d']` (the minimum-cumulative-cost path,
cost 2), never the 2-hop path `['a','c','d']` of cost 6. -/
theorem claim_C1_dijkstra_optimality :
    findPath defaultGraphOptions c1Graph "a" "d" none defaultContext false =
      Except.ok (some ["a", "b", "d"]) ∧
    getDistance defaultGraphOptions c1Graph "a" "d" none defaultContext false =
      Except.ok (some 2) := by
  constructor <;> decide

/-! ## Claim C5 -/

/-- A graph with a single node `a` and no connections. -/
def c5Graph : GraphState := (createNode emptyGraph "a" defaultCreateOpts).1

/-- C5 (amended): when no connection exists at `(from, dir)`, `setGate` and
`updateGate` throw a `ValidationError` and change no state, while `removeGate`
is a silent no-op: it throws nothing and changes no state. -/
theorem claim_C5_gate_ops_missing_connection (g : GraphState) (frm dir : String)
    (h : getConnection g frm dir = none) :
    (∀ gate, setGate g frm dir gate =
      (g, some (Err.validation
        ("Connection from \"" ++ frm ++ "\" in direction \"" ++ dir ++
          "\" does not exist")))) ∧
    (∀ updates, updateGate g frm dir updates =
      (g, some (Err.validation
        ("Gate on connection from \"" ++ frm ++ "\" in direction \"" ++ dir ++
          "\" does not exist")))) ∧
    removeGate g frm dir = (g, none) := by
  rw [getConnection_eq_none_iff] at h
  unfold connAt at h
  cases hf : mapFind? g.connections frm with
  | none =>
    refine ⟨fun gate => ?_, fun updates => ?_, ?_⟩ <;>
      simp [setGate, updateGate, removeGate, hf]
  | some im =>
    rw [hf] at h
    simp only [Option.some_bind] at h
    refine ⟨fun gate => ?_, fun updates => ?_, ?_⟩ <;>
      simp [setGate, updateGate, removeGate, hf, h]

/-- C5 counterexample: on a graph with node `a` and no connection at
`("a", NORTH)`, `removeGate` does not throw (it returns no error and leaves
the state unchanged), contradicting the claim that it throws a
`ValidationError` there. -/
theorem claim_C5_counterexample :
    getConnection c5Graph "a" "NORTH" = none ∧
    removeGate c5Graph "a" "NORTH" = (c5Graph, none) := by
  constructor <;> decide

/-- Witness for C5 at a concrete input. -/
theorem claim_C5_witness :
    (∀ gate, setGate c5Graph "b" "EAST" gate =
      (c5Graph, some (Err.validation
        "Connection from \"b\" in direction \"EAST\" does not exist"))) ∧
    (∀ updates, updateGate c5Graph "b" "EAST" updates =
      (c5Graph, some (Err.validation
        "Gate on connection from \"b\" in direction \"EAST\" does not exist"))) ∧
    removeGate c5Graph "b" "EAST" = (c5Graph, none) :=
  claim_C5_gate_ops_missing_connection c5Graph "b" "EAST" (by decide)

/-! ## Claim C7 -/

theorem keyHeld_eq_true_iff (keyId : Option String) (inventory : Option (List String)) :
    keyHeld keyId inventory = true ↔
      ∃ k, keyId = some k ∧ k ≠ "" ∧ k ∈ inventory.getD [] := by
  cases keyId with
  | none => simp [keyHeld]
  | some k =>
    simp only [keyHeld, Bool.and_eq_true, bne_iff_ne, ne_eq, Option.some.injEq]
    constructor
    · rintro ⟨hne, hmem⟩
      exact ⟨k, rfl, hne, List.elem_iff.mp hmem⟩
    · rintro ⟨k2, hk2, hne, hmem⟩
      subst hk2
      exact ⟨hne, List.elem_iff.mpr hmem⟩

/-- C7 (amended): for a gate that is not hidden-and-undiscovered and has
`locked` set, the default traversal result is `{allowed:true}` iff
`gate.keyId` is defined, non-empty (JS truthiness of strings) and occurs in
`context.inventory`; otherwise it is
`{allowed:false, reason:'locked', gateId: gate.id}`.  The locked branch is
terminal: the gate's condition is never consulted. -/
theorem claim_C7_locked_gate_precedence (go : GraphOptions) (conn : ConnectionData)
    (gate : Gate) (ctx : TraversalContext)
    (hHidden : (boolTruthy gate.hidden && !((ctx.discovered.getD []).contains gate.id)) = false)
    (hLocked : boolTruthy gate.locked = true) :
    (defaultCanTraverse go conn (some gate) ctx = allowedResult ↔
      ∃ k, gate.keyId = some k ∧ k ≠ "" ∧ k ∈ ctx.inventory.getD []) ∧
    (¬ (∃ k, gate.keyId = some k ∧ k ≠ "" ∧ k ∈ ctx.inventory.getD []) →
      defaultCanTraverse go conn (some gate) ctx =
        { allowed := false, reason := some "locked", gateId := some gate.id }) ∧
    (∀ cond2 : Option Condition,
      defaultCanTraverse go conn (some { gate with condition := cond2 }) ctx =
        defaultCanTraverse go conn (some gate) ctx) := by
  have hkey := keyHeld_eq_true_iff gate.keyId ctx.inventory
  have hred : defaultCanTraverse go conn (some gate) ctx =
      (if keyHeld gate.keyId ctx.inventory then allowedResult
       else { allowed := false, reason := some "locked", gateId := some gate.id }) := by
    simp only [defaultCanTraverse, hHidden, hLocked]
    simp
  refine ⟨?_, ?_, ?_⟩
  · rw [hred]
    cases hk : keyHeld gate.keyId ctx.inventory with
    | true =>
      rw [hk] at hkey
      simp [hkey.mp rfl]
    | false =>
      rw [hk] at hkey
      have hne : ¬ ∃ k, gate.keyId = some k ∧ k ≠ "" ∧ k ∈ ctx.inventory.getD [] := by
        intro hex
        exact Bool.false_ne_true (hkey.mpr hex)
      simp only [if_false, Bool.false_eq_true, hne, iff_false]
      intro hcontra
      have := congrArg TraversalResult.allowed hcontra
      simp [allowedResult] at this
  · intro hnk
    rw [hred]
    have hk : keyHeld gate.keyId ctx.inventory = false := by
      cases hk2 : keyHeld gate.keyId ctx.inventory with
      | false => rfl
      | true =>
        rw [hk2] at hkey
        exact absurd (hkey.mp rfl) hnk
    simp [hk]
  · intro cond2
    have hred2 : defaultCanTraverse go conn (some { gate with condition := cond2 }) ctx =
        (if keyHeld gate.keyId ctx.inventory then allowedResult
         else { allowed := false, reason := some "locked", gateId := some gate.id }) := by
      simp only [defaultCanTraverse, hHidden, hLocked]
      simp
    rw [hred, hred2]

/-- The gate/connection/context of the C7 counterexample: the gate is locked
with the DEFINED key id `""`, and the inventory contains `""`. -/
def c7Gate : Gate :=
  { id := "g1", locked := some true, keyId := some "", condition := none, hidden := none,
    oneWay := none, description := none, blockedMessage := none, metadata := none }

def c7Conn : ConnectionData :=
  { target := "b", direction := "NORTH", gate := some c7Gate, cost := 1,
    fromTile := none, toTile := none }

def c7Ctx : TraversalContext :=
  { inventory := some [""], discovered := none, flagStore := none }

/-- C7 counterexample: `gate.keyId` is defined (`""`) and occurs in
`context.inventory`, yet the result is the locked refusal, not
`{allowed:true}`: the empty-string key id is falsy in JS. -/
theorem claim_C7_counterexample :
    c7Gate.keyId = some "" ∧ "" ∈ (c7Ctx.inventory.getD []) ∧
    defaultCanTraverse defaultGraphOptions c7Conn (some c7Gate) c7Ctx =
      { allowed := false, reason := some "locked", gateId := some "g1" } := by
  refine ⟨rfl, by decide, by decide⟩

/-- The gate/context of the C7 witness: locked with key `"k"`, inventory
holding `"k"`. -/
def c7wGate : Gate := { c7Gate with keyId := some "k" }

def c7wCtx : TraversalContext :=
  { inventory := some ["k"], discovered := none, flagStore := none }

/-- Witness for C7 at a concrete input. -/
theorem claim_C7_witness :
    defaultCanTraverse defaultGraphOptions c7Conn (some c7wGate) c7wCtx = allowedResult :=
  (claim_C7_locked_gate_precedence defaultGraphOptions c7Conn c7wGate c7wCtx
    (by decide) (by decide)).1.mpr ⟨"k", rfl, by decide, by decide⟩

/-! ## Claim C2 -/

theorem connAt_def (g : GraphState) (f d : String) :
    connAt g f d = (mapFind? g.connections f).bind (fun im => mapFind? im d) := rfl

/-- C2: for every pair of existing nodes and direction with a registered
opposite, `connect(A, D, B)` with `bidirectional` true (the default) also
creates the reverse edge at `(B, opposite(D))` targeting `A` with the same
cost and gate and with `bidirectional` false; a pre-existing reverse edge at
`(B, opposite(D))` is left completely unchanged; with `bidirectional:false` no
reverse edge is created.  (The first conjunct records the forward edge.) -/
theorem claim_C2_bidirectional_mirror (g : GraphState) (frm dir tgt opp : String)
    (opts : ConnectOptions)
    (hA : mapContains g.nodes frm = true) (hB : mapContains g.nodes tgt = true)
    (hOpp : DirOpposite dir = some opp) :
    connAt (connect g frm dir tgt opts).1 frm dir =
      some { target := tgt, direction := dir, gate := opts.gate, cost := opts.cost.getD 1,
             fromTile := opts.fromTile, toTile := opts.toTile,
             bidirectional := opts.bidirectional.getD true } ∧
    (opts.bidirectional.getD true = true → connAt g tgt opp = none →
      connAt (connect g frm dir tgt opts).1 tgt opp =
        some { target := frm, direction := opp, gate := opts.gate, cost := opts.cost.getD 1,
               fromTile := opts.toTile, toTile := opts.fromTile, bidirectional := false }) ∧
    (opts.bidirectional.getD true = true → ∀ r, connAt g tgt opp = some r →
      connAt (connect g frm dir tgt opts).1 tgt opp = some r) ∧
    (opts.bidirectional.getD true = false →
      connAt (connect g frm dir tgt opts).1 tgt opp = connAt g tgt opp) := by
  have hne : dir ≠ opp := DirOpposite_ne hOpp
  have hswap : ¬ (tgt = frm ∧ opp = dir) := fun hc => hne hc.2.symm
  have hfwd : ¬ (frm = tgt ∧ dir = opp) := fun hc => hne hc.2
  unfold connect
  rw [hA, hB]
  cases hb : opts.bidirectional.getD true with
  | false =>
    refine ⟨?_, fun hc => absurd hc (by decide), fun hc => absurd hc (by decide),
      fun _ => ?_⟩
    · rw [connAt_def]
      simp [connAt_setConn]
    · rw [connAt_def]
      simp [connAt_setConn, hswap, connAt]
  | true =>
    refine ⟨?_, fun _ hprev => ?_, fun _ r hr => ?_, fun hc => absurd hc (by decide)⟩
    · cases hprev : connAt g tgt opp with
      | none =>
        rw [connAt_def] at hprev
        rw [connAt_def]
        simp [hOpp, connAt_setConn, hswap, hfwd, hprev]
      | some r0 =>
        rw [connAt_def] at hprev
        rw [connAt_def]
        simp [hOpp, connAt_setConn, hswap, hfwd, hprev]
    · rw [connAt_def] at hprev
      rw [connAt_def]
      simp [hOpp, connAt_setConn, hswap, hfwd, hprev]
    · rw [connAt_def] at hr
      rw [connAt_def]
      simp [hOpp, connAt_setConn, hswap, hfwd, hr]

/-- A graph with just the nodes `a` and `b`. -/
def abGraph : GraphState :=
  let g := (createNode emptyGraph "a" defaultCreateOpts).1
  (createNode g "b" defaultCreateOpts).1

/-- Witness for C2 at a concrete input: the default-bidirectional
`connect("a", NORTH, "b")` creates the mirror at `("b", SOUTH)`. -/
theorem claim_C2_witness :
    connAt (connect abGraph "a" "NORTH" "b" defaultConnectOpts).1 "b" "SOUTH" =
      some { target := "a", direction := "SOUTH", gate := none, cost := 1,
             fromTile := none, toTile := none, bidirectional := false } :=
  (claim_C2_bidirectional_mirror abGraph "a" "NORTH" "b" "SOUTH" defaultConnectOpts
    (by decide) (by decide) (by decide)).2.1 (by decide) (by decide)

/-! ## Claim C4 -/

/-- C4 (amended): every public mutating operation except `deserialize`
(createNode, removeNode, connect, disconnect, setGate, updateGate, removeGate,
setZone) validates before any state change: if the call throws, the graph
state is exactly as it was before the call.  `deserialize` is the exception:
it clears all state before validating (see the counterexample). -/
theorem claim_C4_error_atomicity :
    (∀ g id opts e, (createNode g id opts).2 = some e → (createNode g id opts).1 = g) ∧
    (∀ g id e, (removeNode g id).2 = Except.error e → (removeNode g id).1 = g) ∧
    (∀ g f d t opts e, (connect g f d t opts).2 = some e → (connect g f d t opts).1 = g) ∧
    (∀ g f d ob e, (disconnect g f d ob).2 = some e → (disconnect g f d ob).1 = g) ∧
    (∀ g f d gate e, (setGate g f d gate).2 = some e → (setGate g f d gate).1 = g) ∧
    (∀ g f d u e, (updateGate g f d u).2 = some e → (updateGate g f d u).1 = g) ∧
    (∀ g f d e, (removeGate g f d).2 = some e → (removeGate g f d).1 = g) ∧
    (∀ g n z e, (setZone g n z).2 = some e → (setZone g n z).1 = g) := by
  refine ⟨?_, ?_, ?_, ?_, ?_, ?_, ?_, ?_⟩
  · intro g id opts e h
    by_cases h1 : id = ""
    · simp [createNode, h1]
    · by_cases h2 : mapContains g.nodes id = true
      · simp [createNode, h1, h2]
      · simp [createNode, h1, h2] at h
  · intro g id e h
    unfold removeNode at h ⊢
    cases hf : mapFind? g.nodes id with
    | none => simp [hf]
    | some nd => simp [hf] at h
  · intro g f d t opts e h
    by_cases h1 : mapContains g.nodes f = true
    · by_cases h2 : mapContains g.nodes t = true
      · have hnone : (connect g f d t opts).2 = none := by
          unfold connect
          rw [h1, h2]
          simp only [Bool.not_true, Bool.false_eq_true, if_false]
          split
          · split
            · rfl
            · split <;> rfl
          · rfl
        rw [hnone] at h
        exact absurd h (by simp)
      · simp [connect, h1, h2]
    · simp [connect, h1]
  · intro g f d ob e h
    by_cases h1 : mapContains g.nodes f = true
    · have hnone : (disconnect g f d ob).2 = none := by
        unfold disconnect
        rw [h1]
        simp only [Bool.not_true, Bool.false_eq_true, if_false]
        split
        · rfl
        · split
          · rfl
          · split
            · split
              · rfl
              · split
                · rfl
                · split <;> rfl
            · rfl
      rw [hnone] at h
      exact absurd h (by simp)
    · simp [disconnect, h1]
  · intro g f d gate e h
    unfold setGate at h ⊢
    cases hf : mapFind? g.connections f with
    | none => simp [hf]
    | some im =>
      cases hd : mapFind? im d with
      | none => simp [hf, hd]
      | some c => simp [hf, hd] at h
  · intro g f d u e h
    unfold updateGate at h ⊢
    cases hf : mapFind? g.connections f with
    | none => simp [hf]
    | some im =>
      cases hd : mapFind? im d with
      | none => simp [hf, hd]
      | some c =>
        cases hg : c.gate with
        | none => simp [hf, hd, hg]
        | some gt => simp [hf, hd, hg] at h
  · intro g f d e h
    unfold removeGate at h ⊢
    cases hf : mapFind? g.connections f with
    | none => simp [hf] at h
    | some im =>
      cases hd : mapFind? im d with
      | none => simp [hf, hd] at h
      | some c =>
        cases hg : c.gate with
        | none => simp [hf, hd, hg] at h
        | some gt => simp [hf, hd, hg] at h
  · intro g n z e h
    unfold setZone at h ⊢
    cases hf : mapFind? g.nodes n with
    | none => simp [hf]
    | some nd => simp [hf] at h

/-- Malformed serialized data whose single node entry has the empty id, so
`deserialize` throws from the inner `createNode` call. -/
def c4BadData : SerializedGraph :=
  { nodes := [("", { id := "", metadata := [], tiles := none, layer := 1, zone := none })],
    connections := [] }

/-- C4 counterexample: `deserialize` clears the graph BEFORE validating, so a
throwing call leaves the state changed (here: a non-empty graph is left
empty), contradicting the claim that every listed mutating operation,
including deserialize, leaves state untouched when it throws. -/
theorem claim_C4_counterexample :
    (deserialize c1Graph c4BadData).2 = some (Err.validation "Node id cannot be empty") ∧
    (deserialize c1Graph c4BadData).1 ≠ c1Graph ∧
    (deserialize c1Graph c4BadData).1 = emptyGraph := by
  refine ⟨by decide, by decide, by decide⟩

/-- Witness for C4 at a concrete input: a duplicate-id `createNode` throws and
leaves the state unchanged. -/
theorem claim_C4_witness :
    (createNode c5Graph "a" defaultCreateOpts).2 =
      some (Err.validation "Node with id \"a\" already exists") ∧
    (createNode c5Graph "a" defaultCreateOpts).1 = c5Graph :=
  ⟨by decide, claim_C4_error_atomicity.1 c5Graph "a" defaultCreateOpts
    (Err.validation "Node with id \"a\" already exists") (by decide)⟩

/-! ## Claim C6 -/

theorem mapFind?_foldlDelete_of_none {α β γ : Type} [DecidableEq α] (keyf : γ → α)
    (ts : List γ) (m : SMap α β) (k : α) (h : mapFind? m k = none) :
    mapFind? (ts.foldl (fun ti t => mapDelete ti (keyf t)) m) k = none := by
  induction ts generalizing m with
  | nil => exact h
  | cons t rest ih =>
    apply ih
    by_cases he : k = keyf t
    · rw [he]; exact mapFind?_delete_self _ _
    · rw [mapFind?_delete_ne _ _ _ he]; exact h

theorem mapFind?_foldlDelete_of_mem {α β γ : Type} [DecidableEq α] (keyf : γ → α)
    (ts : List γ) (m : SMap α β) (t0 : γ) (hmem : t0 ∈ ts) :
    mapFind? (ts.foldl (fun ti t => mapDelete ti (keyf t)) m) (keyf t0) = none := by
  induction ts generalizing m with
  | nil => cases hmem
  | cons t rest ih =>
    rcases List.mem_cons.mp hmem with rfl | hmem2
    · rw [List.foldl_cons]
      exact mapFind?_foldlDelete_of_none _ _ _ _ (mapFind?_delete_self _ _)
    · exact ih _ hmem2

/-- C6: for every existing node `a`, after `removeNode(a)`: no connection
remains whose source or target is `a` (so `getConnection(a, d)` returns null
for every `d`, and no remaining connection targets `a`), `a`'s tiles are
removed from the tile index, `a` is in no zone, and the removed node's
snapshot is returned; `removeNode` of an absent node throws a
`ValidationError`. -/
theorem claim_C6_cascading_delete (g : GraphState) (a : String) (nd : NodeData)
    (h : mapFind? g.nodes a = some nd) :
    (removeNode g a).2 = Except.ok nd ∧
    mapFind? (removeNode g a).1.connections a = none ∧
    (∀ c dir cn, connAt (removeNode g a).1 c dir = some cn → cn.target ≠ a) ∧
    (∀ dir, getConnection (removeNode g a).1 a dir = none) ∧
    (∀ t ∈ nd.tiles.getD [],
      mapFind? (removeNode g a).1.tileIndex
        (tileKey t.x t.y (t.layer.getD nd.layer)) = none) ∧
    getZone (removeNode g a).1 a = none ∧
    (∀ z, a ∉ getNodesInZone (removeNode g a).1 z) ∧
    (∀ g2 b, mapFind? g2.nodes b = none →
      removeNode g2 b =
        (g2, Except.error (Err.validation ("Node \"" ++ b ++ "\" does not exist")))) := by
  have hconn2 : (removeNode g a).1.connections =
      mapVals (fun _ im => im.filter (fun q => q.2.target ≠ a))
        (mapDelete g.connections a) := by
    unfold removeNode
    rw [h]
  have hconnLookup : ∀ c, mapFind? (removeNode g a).1.connections c =
      (mapFind? (mapDelete g.connections a) c).map
        (fun im => im.filter (fun q => q.2.target ≠ a)) := by
    intro c
    rw [hconn2]
    exact mapFind?_mapVals _ _ _
  have hnodes : (removeNode g a).1.nodes = mapDelete g.nodes a := by
    unfold removeNode
    rw [h]
  refine ⟨?_, ?_, ?_, ?_, ?_, ?_, ?_, ?_⟩
  · unfold removeNode
    rw [h]
  · rw [hconnLookup, mapFind?_delete_self]
    rfl
  · intro c dir cn hcn
    rw [connAt_def, hconnLookup] at hcn
    cases hfc : mapFind? (mapDelete g.connections a) c with
    | none => rw [hfc] at hcn; simp at hcn
    | some im =>
      rw [hfc] at hcn
      have hcn2 : mapFind? (im.filter (fun q => q.2.target ≠ a)) dir = some cn := hcn
      have hmem := mem_of_mapFind?_eq_some hcn2
      have hdec := List.of_mem_filter hmem
      have hdec2 : decide (cn.target ≠ a) = true := hdec
      exact of_decide_eq_true hdec2
  · intro dir
    unfold getConnection
    rw [hconnLookup, mapFind?_delete_self]
    rfl
  · intro t hmem
    have htile : (removeNode g a).1.tileIndex =
        (match nd.tiles with
         | none => g.tileIndex
         | some ts =>
             ts.foldl (fun ti t => mapDelete ti (tileKey t.x t.y (t.layer.getD nd.layer)))
               g.tileIndex) := by
      unfold removeNode
      rw [h]
    rw [htile]
    cases htiles : nd.tiles with
    | none => simp [htiles] at hmem
    | some ts =>
      exact mapFind?_foldlDelete_of_mem
        (fun t => tileKey t.x t.y (t.layer.getD nd.layer)) ts g.tileIndex t
        (by rw [htiles] at hmem; simpa using hmem)
  · unfold getZone
    rw [hnodes, mapFind?_delete_self]
    rfl
  · intro z hzmem
    unfold getNodesInZone at hzmem
    rw [hnodes] at hzmem
    rcases List.mem_map.mp hzmem with ⟨p, hpmem, hpa⟩
    have hpdel := List.mem_of_mem_filter hpmem
    have : a ∈ mapKeys (mapDelete g.nodes a) := by
      rcases p with ⟨k, v⟩
      cases hpa
      exact List.mem_map.mpr ⟨(k, v), hpdel, rfl⟩
    exact (mapFind?_eq_none_iff.mp (mapFind?_delete_self _ _)) this
  · intro g2 b hb
    unfold removeNode
    rw [hb]

/-- The C6 witness graph: `c1Graph` plus a node `e` occupying tile (0,0) on
layer 1 and a bidirectional edge `e --UP--> a`. -/
def c6Graph : GraphState :=
  let g := c1Graph
  let g := (createNode g "e"
    { defaultCreateOpts with tiles := some [{ x := 0, y := 0, layer := none }] }).1
  (connect g "e" "UP" "a" defaultConnectOpts).1

/-- Witness for C6 at a concrete input: removing `e` clears its connections,
its tile-index entry and its zone membership. -/
theorem claim_C6_witness :
    mapFind? (removeNode c6Graph "e").1.connections "e" = none ∧
    mapFind? (removeNode c6Graph "e").1.tileIndex (tileKey 0 0 1) = none ∧
    getZone (removeNode c6Graph "e").1 "e" = none := by
  have hc6 := claim_C6_cascading_delete c6Graph "e"
    { id := "e", metadata := [], tiles := some [{ x := 0, y := 0, layer := some 1 }],
      layer := 1, zone := none } (by decide)
  exact ⟨hc6.2.1,
    hc6.2.2.2.2.1 { x := 0, y := 0, layer := some 1 } (by decide),
    hc6.2.2.2.2.2.1⟩

/-! ## Claim C9 -/

/-- C9: identity queries skip node-existence validation: for every string `x`
(a node of the graph or not), `findPath(x, x, opts)` returns `[x]` and
`getDistance(x, x, opts)` returns `0` without throwing, whereas the same calls
with distinct endpoints and a nonexistent start node throw a
`ValidationError` raised by `getExits`. -/
theorem claim_C9_identity_queries (go : GraphOptions) (g : GraphState)
    (x frm tgt : String) (maxLength : Option Nat) (ctx : TraversalContext) (avoid : Bool) :
    findPath go g x x maxLength ctx avoid = Except.ok (some [x]) ∧
    getDistance go g x x maxLength ctx avoid = Except.ok (some 0) ∧
    (frm ≠ tgt → mapFind? g.nodes frm = none →
      findPath go g frm tgt maxLength ctx avoid =
        Except.error (Err.validation ("Node \"" ++ frm ++ "\" does not exist")) ∧
      getDistance go g frm tgt maxLength ctx avoid =
        Except.error (Err.validation ("Node \"" ++ frm ++ "\" does not exist"))) := by
  have hfuel : totalConnections g + 2 = totalConnections g + 1 + 1 := rfl
  refine ⟨by simp [findPath], by simp [getDistance], fun hne hmiss => ⟨?_, ?_⟩⟩
  · have hexits : getExits g frm =
        Except.error (Err.validation ("Node \"" ++ frm ++ "\" does not exist")) := by
      unfold getExits mapContains
      rw [hmiss]
      rfl
    unfold findPath
    rw [if_neg hne, hfuel]
    simp only [findPathLoop]
    simp [sortByCost, insertByCost, List.contains, hexits, hne]
  · have hexits : getExits g frm =
        Except.error (Err.validation ("Node \"" ++ frm ++ "\" does not exist")) := by
      unfold getExits mapContains
      rw [hmiss]
      rfl
    unfold getDistance
    rw [if_neg hne, hfuel]
    simp only [getDistanceLoop]
    simp [sortByCost, insertByCost, List.contains, hexits, hne]

/-- Witness for C9 at a concrete input. -/
theorem claim_C9_witness :
    findPath defaultGraphOptions emptyGraph "a" "b" none defaultContext false =
      Except.error (Err.validation "Node \"a\" does not exist") ∧
    getDistance defaultGraphOptions emptyGraph "a" "b" none defaultContext false =
      Except.error (Err.validation "Node \"a\" does not exist") :=
  (claim_C9_identity_queries defaultGraphOptions emptyGraph "z" "a" "b" none
    defaultContext false).2.2 (by decide) (by decide)

/-! ## Claim C10 -/

/-- Every connection stored in the table has a cleared `bidirectional` flag. -/
def AllConnsBidiFalse (m : SMap String (SMap String InternalConnection)) : Prop :=
  ∀ p ∈ m, ∀ q ∈ p.2, q.2.bidirectional = false

theorem allConns_setConn {m : SMap String (SMap String InternalConnection)}
    {f d : String} {c : InternalConnection}
    (hm : AllConnsBidiFalse m) (hc : c.bidirectional = false) :
    AllConnsBidiFalse (setConn m f d c) := by
  intro p hp q hq
  unfold setConn at hp
  cases hfind : mapFind? m f with
  | some im =>
    rw [hfind] at hp
    rcases mem_of_mem_mapSet hp with rfl | hpm
    · rcases mem_of_mem_mapSet hq with rfl | hqm
      · exact hc
      · exact hm (f, im) (mem_of_mapFind?_eq_some hfind) _ hqm
    · exact hm _ hpm _ hq
  | none =>
    rw [hfind] at hp
    rcases mem_of_mem_mapSet hp with rfl | hpm
    · rcases mem_of_mem_mapSet hq with rfl | hqm
      · exact hc
      · cases hqm
    · exact hm _ hpm _ hq

theorem allConns_install (frm : String) (im : List (String × ConnectionData))
    {conns : SMap String (SMap String InternalConnection)}
    (hm : AllConnsBidiFalse conns) :
    AllConnsBidiFalse
      (im.foldl (fun acc q => setConn acc frm q.1 (deserializeConn q.1 q.2)) conns) := by
  induction im generalizing conns with
  | nil => exact hm
  | cons q rest ih => exact ih (allConns_setConn hm rfl)

theorem allConns_deserializeConns
    (entries : List (String × SMap String ConnectionData))
    {conns : SMap String (SMap String InternalConnection)}
    (hm : AllConnsBidiFalse conns) :
    AllConnsBidiFalse (deserializeConns conns entries) := by
  induction entries generalizing conns with
  | nil => exact hm
  | cons p rest ih =>
    obtain ⟨frm, im⟩ := p
    exact ih (allConns_install frm im hm)

theorem createNode_connections (g : GraphState) (id : String) (opts : CreateNodeOptions) :
    (createNode g id opts).1.connections = g.connections := by
  unfold createNode
  split
  · rfl
  · split <;> rfl

theorem setZone_connections (g : GraphState) (n z : String) :
    (setZone g n z).1.connections = g.connections := by
  unfold setZone
  split <;> rfl

theorem deserializeNodes_connections (L : List (String × NodeData)) (g : GraphState) :
    (deserializeNodes g L).1.connections = g.connections := by
  induction L generalizing g with
  | nil => rfl
  | cons p rest ih =>
    obtain ⟨id, nd⟩ := p
    rcases hc : createNode g id (nodeCreateOpts nd) with ⟨g1, e⟩
    have hg1 : g1.connections = g.connections := by
      have h2 := createNode_connections g id (nodeCreateOpts nd)
      rw [hc] at h2
      exact h2
    cases e with
    | some err =>
      simp only [deserializeNodes, hc]
      exact hg1
    | none =>
      by_cases hz : strTruthy nd.zone = true
      · rcases hs : setZone g1 id (nd.zone.getD "") with ⟨g2, e2⟩
        have hg2 : g2.connections = g1.connections := by
          have h2 := setZone_connections g1 id (nd.zone.getD "")
          rw [hs] at h2
          exact h2
        cases e2 with
        | some err =>
          simp only [deserializeNodes, hc]
          rw [if_pos hz]
          simp only [hs]
          rw [hg2, hg1]
        | none =>
          simp only [deserializeNodes, hc]
          rw [if_pos hz]
          simp only [hs]
          rw [ih g2, hg2, hg1]
      · simp only [deserializeNodes, hc]
        rw [if_neg hz, ih g1, hg1]

theorem deserialize_bidi_false (g : GraphState) (data : SerializedGraph) :
    ∀ f d c, connAt (deserialize g data).1 f d = some c → c.bidirectional = false := by
  intro f d c hc
  rcases hn : deserializeNodes { nodes := [], connections := [], tileIndex := [] }
    data.nodes with ⟨g1, e⟩
  have hg1 : g1.connections = ([] : SMap String (SMap String InternalConnection)) := by
    have h2 := deserializeNodes_connections data.nodes
      { nodes := [], connections := [], tileIndex := [] }
    rw [hn] at h2
    exact h2
  cases e with
  | some err =>
    simp only [deserialize, hn, connAt_def] at hc
    rw [hg1] at hc
    simp at hc
  | none =>
    have hAll : AllConnsBidiFalse (deserializeConns g1.connections data.connections) := by
      apply allConns_deserializeConns
      rw [hg1]
      intro p hp
      cases hp
    simp only [deserialize, hn, connAt_def] at hc
    cases hfm : mapFind? (deserializeConns g1.connections data.connections) f with
    | none => rw [hfm] at hc; simp at hc
    | some im =>
      rw [hfm] at hc
      simp only [Option.some_bind] at hc
      exact hAll (f, im) (mem_of_mapFind?_eq_some hfm) (d, c) (mem_of_mapFind?_eq_some hc)

theorem disconnect_default_preserves (g2 : GraphState)
    (hAll : ∀ f d c, connAt g2 f d = some c → c.bidirectional = false)
    (frm dir f2 d2 : String) (hne : ¬ (f2 = frm ∧ d2 = dir)) :
    connAt (disconnect g2 frm dir none).1 f2 d2 = connAt g2 f2 d2 := by
  by_cases h1 : mapContains g2.nodes frm = true
  · unfold disconnect
    rw [h1]
    cases hf : mapFind? g2.connections frm with
    | none => simp [hf]
    | some im =>
      cases hd : mapFind? im dir with
      | none => simp [hf, hd]
      | some connection =>
        have hb : connection.bidirectional = false := by
          apply hAll frm dir connection
          rw [connAt_def, hf]
          simpa using hd
        simp only [hf, hd, hb]
        simp
        rw [connAt_def, connAt_def]
        by_cases hff : f2 = frm
        · subst hff
          rw [mapFind?_set_self, hf]
          have hdd : d2 ≠ dir := fun hdd => hne ⟨rfl, hdd⟩
          simp only [Option.some_bind]
          exact mapFind?_delete_ne _ _ _ hdd
        · rw [mapFind?_set_ne _ _ _ _ hff]
  · unfold disconnect
    simp [h1]

/-- C10: after `deserialize(data)`, every restored connection's internal
`bidirectional` flag is false regardless of how it was originally created;
consequently `disconnect(from, dir)` without an explicit bidirectional option
removes only the forward edge on a freshly deserialized graph: every other
slot, in particular the mirror at `(target, opposite(dir))`, is unchanged. -/
theorem claim_C10_deserialize_flattens (g : GraphState) (data : SerializedGraph) :
    (∀ f d c, connAt (deserialize g data).1 f d = some c → c.bidirectional = false) ∧
    (∀ frm dir f2 d2, ¬ (f2 = frm ∧ d2 = dir) →
      connAt (disconnect (deserialize g data).1 frm dir none).1 f2 d2 =
        connAt (deserialize g data).1 f2 d2) :=
  ⟨deserialize_bidi_false g data,
   fun frm dir f2 d2 hne =>
     disconnect_default_preserves (deserialize g data).1
       (deserialize_bidi_false g data) frm dir f2 d2 hne⟩

/-- Witness for C10 at a concrete input: after a round trip of `c1Graph`,
disconnecting `("a", NORTH)` leaves the mirror `("b", SOUTH)` in place. -/
theorem claim_C10_witness :
    connAt (disconnect (deserialize c1Graph (serialize c1Graph)).1 "a" "NORTH" none).1
        "b" "SOUTH" =
      connAt (deserialize c1Graph (serialize c1Graph)).1 "b" "SOUTH" :=
  (claim_C10_deserialize_flattens c1Graph (serialize c1Graph)).2 "a" "NORTH" "b" "SOUTH"
    (by decide)

/-! ## Claim C8 -/

theorem processExit_avoid (go : GraphOptions) (g : GraphState) (ctx : TraversalContext)
    (maxLength : Option Nat) (curNode : String) (curCost : Int) (visited : List String)
    (st : List QEntry × SMap String Int × SMap String String) (e : ExitInfo) :
    processExit go g ctx true maxLength curNode curCost visited st e =
      processExit go g ctx false maxLength curNode curCost visited st e := by
  unfold processExit
  cases h : (canTraverse go g curNode e.direction ctx).allowed <;> simp [h]

theorem relaxExits_avoid (go : GraphOptions) (g : GraphState) (ctx : TraversalContext)
    (maxLength : Option Nat) (curNode : String) (curCost : Int) (visited1 : List String)
    (exits : List ExitInfo) (rest : List QEntry) (distances : SMap String Int)
    (previous : SMap String String) :
    relaxExits go g ctx true maxLength curNode curCost visited1 exits rest
        distances previous =
      relaxExits go g ctx false maxLength curNode curCost visited1 exits rest
        distances previous := by
  unfold relaxExits
  apply List.foldl_ext
  intro acc b _
  exact processExit_avoid go g ctx maxLength curNode curCost visited1 acc b

theorem findPathLoop_avoid (go : GraphOptions) (g : GraphState) (tgt : String)
    (maxLength : Option Nat) (ctx : TraversalContext) :
    ∀ fuel queue visited distances previous,
      findPathLoop go g tgt maxLength ctx true fuel queue visited distances previous =
        findPathLoop go g tgt maxLength ctx false fuel queue visited distances previous := by
  intro fuel
  induction fuel with
  | zero => intro queue visited distances previous; rfl
  | succ n ih =>
    intro queue visited distances previous
    unfold findPathLoop
    split
    · rfl
    · split
      · apply ih
      · split
        · rfl
        · split
          · rfl
          · rw [relaxExits_avoid]
            apply ih

theorem getDistanceLoop_avoid (go : GraphOptions) (g : GraphState) (tgt : String)
    (maxLength : Option Nat) (ctx : TraversalContext) :
    ∀ fuel queue visited distances previous,
      getDistanceLoop go g tgt maxLength ctx true fuel queue visited distances previous =
        getDistanceLoop go g tgt maxLength ctx false fuel queue visited distances previous := by
  intro fuel
  induction fuel with
  | zero => intro queue visited distances previous; rfl
  | succ n ih =>
    intro queue visited distances previous
    unfold getDistanceLoop
    split
    · rfl
    · split
      · apply ih
      · split
        · rfl
        · split
          · rfl
          · rw [relaxExits_avoid]
            apply ih

/-- C8: `avoidLocked` is irrelevant to pathfinding: for every graph (with any
construction-time options), every pair of node ids, every `maxLength` and
every traversal context, `findPath` with `avoidLocked:true` returns the same
result as with `avoidLocked:false`, and likewise `getDistance`: edges whose
`canTraverse` check fails are pruned identically in both branches. -/
theorem claim_C8_avoidLocked_irrelevant (go : GraphOptions) (g : GraphState)
    (frm tgt : String) (maxLength : Option Nat) (ctx : TraversalContext) :
    findPath go g frm tgt maxLength ctx true = findPath go g frm tgt maxLength ctx false ∧
    getDistance go g frm tgt maxLength ctx true =
      getDistance go g frm tgt maxLength ctx false := by
  constructor
  · unfold findPath
    by_cases h : frm = tgt
    · rw [if_pos h, if_pos h]
    · rw [if_neg h, if_neg h]
      exact findPathLoop_avoid go g tgt maxLength ctx _ _ _ _ _
  · unfold getDistance
    by_cases h : frm = tgt
    · rw [if_pos h, if_pos h]
    · rw [if_neg h, if_neg h]
      exact getDistanceLoop_avoid go g tgt maxLength ctx _ _ _ _ _

/-! ## Claim C3: further association-list lemmas -/

section MoreMapLemmas

variable {α β γ : Type} [DecidableEq α]

theorem mem_mapDelete_strong {m : SMap α β} {k : α} {p : α × β}
    (h : p ∈ mapDelete m k) : p ∈ m ∧ p.1 ≠ k := by
  induction m with
  | nil => simp [mapDelete] at h
  | cons q rest ih =>
    rcases q with ⟨k₀, v₀⟩
    by_cases h0 : k₀ = k
    · rw [mapDelete, if_pos h0] at h
      exact ⟨List.mem_cons_of_mem _ (ih h).1, (ih h).2⟩
    · rw [mapDelete, if_neg h0] at h
      rcases List.mem_cons.mp h with rfl | h2
      · exact ⟨List.mem_cons_self _ _, h0⟩
      · exact ⟨List.mem_cons_of_mem _ (ih h2).1, (ih h2).2⟩

theorem mem_mapVals {h : α → β → γ} {m : SMap α β} {p : α × γ}
    (hp : p ∈ mapVals h m) : ∃ q ∈ m, p = (q.1, h q.1 q.2) := by
  rcases List.mem_map.mp hp with ⟨q, hq, rfl⟩
  exact ⟨q, hq, rfl⟩

theorem mapSet_mapSet (m : SMap α β) (k : α) (v v' : β) :
    mapSet (mapSet m k v) k v' = mapSet m k v' := by
  induction m with
  | nil => simp [mapSet]
  | cons q rest ih =>
    rcases q with ⟨k₀, v₀⟩
    by_cases h0 : k₀ = k
    · simp [mapSet, h0]
    · simp [mapSet, h0, ih]

theorem mapSet_append_self {m : SMap α β} {k : α} (v v' : β)
    (h : k ∉ mapKeys m) : mapSet (m ++ [(k, v)]) k v' = m ++ [(k, v')] := by
  induction m with
  | nil => simp [mapSet]
  | cons q rest ih =>
    rcases q with ⟨k₀, v₀⟩
    rw [mapKeys_cons, List.mem_cons] at h
    push_neg at h
    have h0 : ¬ k₀ = k := fun he => h.1 he.symm
    simp only [List.cons_append, mapSet, h0, if_false]
    exact congrArg (List.cons (k₀, v₀)) (ih h.2)

theorem nodup_mapKeys_filter (f : α × β → Bool) {m : SMap α β}
    (h : (mapKeys m).Nodup) : (mapKeys (m.filter f)).Nodup :=
  List.Nodup.sublist (List.Sublist.map Prod.fst (List.filter_sublist m)) h

theorem mapFind?_singleton_self (k : α) (v : β) :
    mapFind? [(k, v)] k = some v := by
  simp [mapFind?]

end MoreMapLemmas

/-! ## Claim C3: graph invariants of API-reachable states -/

/-- Keys that can never survive into a node's metadata map: the prototype
pollution denylist plus the `tiles`/`layer` keys deleted by `createNode`. -/
def BADKEYS : List String := ["__proto__", "constructor", "prototype", "tiles", "layer"]

def MetaClean (m : SMap String MetaValue) : Prop :=
  ∀ q ∈ m, q.1 ∉ BADKEYS

/-- All of a node's stored tiles carry an explicit layer (`createNode`
normalization). -/
def TilesNorm (tl : Option (List TilePosition)) : Prop :=
  ∀ t ∈ tl.getD [], t.layer.isSome = true

def NodesInv (nodes : SMap String NodeData) : Prop :=
  (mapKeys nodes).Nodup ∧
  ∀ p ∈ nodes, p.1 ≠ "" ∧ p.2.id = p.1 ∧ MetaClean p.2.metadata ∧ TilesNorm p.2.tiles

def ConnsInv (m : SMap String (SMap String InternalConnection)) : Prop :=
  (mapKeys m).Nodup ∧ ∀ p ∈ m, (mapKeys p.2).Nodup

/-- Structural invariant of every API-reachable graph state. -/
def Inv (g : GraphState) : Prop := NodesInv g.nodes ∧ ConnsInv g.connections

/-- The graph states constructible through the public mutating API. -/
inductive Reachable : GraphState → Prop where
  | empty : Reachable emptyGraph
  | createNode (g : GraphState) (id : String) (opts : CreateNodeOptions) :
      Reachable g → Reachable (createNode g id opts).1
  | removeNode (g : GraphState) (id : String) :
      Reachable g → Reachable (removeNode g id).1
  | connect (g : GraphState) (frm dir tgt : String) (opts : ConnectOptions) :
      Reachable g → Reachable (connect g frm dir tgt opts).1
  | disconnect (g : GraphState) (frm dir : String) (ob : Option Bool) :
      Reachable g → Reachable (disconnect g frm dir ob).1
  | setGate (g : GraphState) (frm dir : String) (gate : Gate) :
      Reachable g → Reachable (setGate g frm dir gate).1
  | updateGate (g : GraphState) (frm dir : String) (u : GateUpdates) :
      Reachable g → Reachable (updateGate g frm dir u).1
  | removeGate (g : GraphState) (frm dir : String) :
      Reachable g → Reachable (removeGate g frm dir).1
  | setZone (g : GraphState) (n z : String) :
      Reachable g → Reachable (setZone g n z).1
  | removeZone (g : GraphState) (n : String) :
      Reachable g → Reachable (removeZone g n)
  | deserialize (g : GraphState) (data : SerializedGraph) :
      Reachable g → Reachable (deserialize g data).1

/-! ## Claim C3: the invariant is preserved by every operation -/

theorem nodesInv_set {nodes : SMap String NodeData} {id : String} {nd : NodeData}
    (h : NodesInv nodes) (hid : id ≠ "") (hnd : nd.id = id) (hmc : MetaClean nd.metadata)
    (htn : TilesNorm nd.tiles) : NodesInv (mapSet nodes id nd) := by
  refine ⟨nodup_mapKeys_set _ _ h.1, ?_⟩
  intro p hp
  rcases mem_of_mem_mapSet hp with rfl | hpm
  · exact ⟨hid, hnd, hmc, htn⟩
  · exact h.2 p hpm

theorem nodesInv_delete {nodes : SMap String NodeData} (h : NodesInv nodes) (k : String) :
    NodesInv (mapDelete nodes k) :=
  ⟨nodup_mapKeys_delete _ h.1, fun p hp => h.2 p (mem_of_mem_mapDelete hp)⟩

theorem connsInv_set {m : SMap String (SMap String InternalConnection)} {f : String}
    {im2 : SMap String InternalConnection} (h : ConnsInv m) (h2 : (mapKeys im2).Nodup) :
    ConnsInv (mapSet m f im2) := by
  refine ⟨nodup_mapKeys_set _ _ h.1, ?_⟩
  intro p hp
  rcases mem_of_mem_mapSet hp with rfl | hpm
  · exact h2
  · exact h.2 p hpm

theorem connsInv_setConn {m : SMap String (SMap String InternalConnection)}
    (h : ConnsInv m) (f d : String) (c : InternalConnection) :
    ConnsInv (setConn m f d c) := by
  unfold setConn
  cases hf : mapFind? m f with
  | some im =>
    exact connsInv_set h
      (nodup_mapKeys_set _ _ (h.2 (f, im) (mem_of_mapFind?_eq_some hf)))
  | none => exact connsInv_set h (by simp [mapSet])

theorem metaClean_createNode (extra : SMap String MetaValue) :
    MetaClean (mapDelete (mapDelete (safeCopy extra) "tiles") "layer") := by
  intro q hq
  have h1 := mem_mapDelete_strong hq
  have h2 := mem_mapDelete_strong h1.1
  have h3 : q.1 ∉ FORBIDDEN_KEYS := by
    have h4 := List.of_mem_filter h2.1
    have h5 : decide (q.1 ∉ FORBIDDEN_KEYS) = true := h4
    exact of_decide_eq_true h5
  intro hbad
  simp only [BADKEYS, List.mem_cons, List.not_mem_nil, or_false] at hbad
  rcases hbad with h|h|h|h|h
  · exact h3 (by simp [FORBIDDEN_KEYS, h])
  · exact h3 (by simp [FORBIDDEN_KEYS, h])
  · exact h3 (by simp [FORBIDDEN_KEYS, h])
  · exact h2.2 h
  · exact h1.2 h

theorem tilesNorm_normalize (layer : Int) (tl : Option (List TilePosition)) :
    TilesNorm (tl.map (List.map (normalizeTile layer))) := by
  intro t ht
  cases tl with
  | none => simp at ht
  | some ts =>
    rcases List.mem_map.mp (by simpa using ht) with ⟨t0, _, rfl⟩
    rfl

theorem inv_createNode {g : GraphState} (h : Inv g) (id : String)
    (opts : CreateNodeOptions) : Inv (createNode g id opts).1 := by
  unfold createNode
  by_cases h1 : id = ""
  · rw [if_pos h1]
    exact h
  · rw [if_neg h1]
    by_cases h2 : mapContains g.nodes id = true
    · rw [if_pos h2]
      exact h
    · rw [if_neg h2]
      exact ⟨nodesInv_set h.1 h1 rfl (metaClean_createNode _) (tilesNorm_normalize _ _),
        h.2⟩

theorem inv_removeNode {g : GraphState} (h : Inv g) (id : String) :
    Inv (removeNode g id).1 := by
  unfold removeNode
  cases hf : mapFind? g.nodes id with
  | none => exact h
  | some nd =>
    refine ⟨nodesInv_delete h.1 id, ?_, ?_⟩
    · rw [mapKeys_mapVals]
      exact nodup_mapKeys_delete _ h.2.1
    · intro p hp
      have hp2 : p ∈ mapVals (fun _ im => im.filter (fun q => q.2.target ≠ id))
          (mapDelete g.connections id) := hp
      rcases mem_mapVals hp2 with ⟨q, hq, rfl⟩
      exact nodup_mapKeys_filter _ (h.2.2 q (mem_of_mem_mapDelete hq))

theorem inv_connect {g : GraphState} (h : Inv g) (frm dir tgt : String)
    (opts : ConnectOptions) : Inv (connect g frm dir tgt opts).1 := by
  unfold connect
  by_cases h1 : mapContains g.nodes frm = true
  · by_cases h2 : mapContains g.nodes tgt = true
    · simp only [h1, h2, Bool.not_true, Bool.false_eq_true, if_false]
      split
      · split
        · refine ⟨h.1, ?_⟩
          exact connsInv_setConn h.2 frm dir _
        · split
          · refine ⟨h.1, ?_⟩
            exact connsInv_setConn h.2 frm dir _
          · refine ⟨h.1, ?_⟩
            exact connsInv_setConn (connsInv_setConn h.2 frm dir _) tgt _ _
      · refine ⟨h.1, ?_⟩
        exact connsInv_setConn h.2 frm dir _
    · simp only [h1, h2, Bool.not_true, Bool.not_false, Bool.false_eq_true, if_false,
        if_true]
      exact h
  · simp only [h1, Bool.not_true, Bool.not_false, Bool.false_eq_true, if_false, if_true]
    exact h

theorem inv_disconnect {g : GraphState} (h : Inv g) (frm dir : String)
    (ob : Option Bool) : Inv (disconnect g frm dir ob).1 := by
  unfold disconnect
  by_cases h1 : mapContains g.nodes frm = true
  · simp only [h1, Bool.not_true, Bool.false_eq_true, if_false]
    cases hf : mapFind? g.connections frm with
    | none => simp only [hf]; exact h
    | some im =>
      simp only [hf]
      cases hd : mapFind? im dir with
      | none => simp only [hd]; exact h
      | some connection =>
        simp only [hd]
        have him : (mapKeys im).Nodup := h.2.2 (frm, im) (mem_of_mapFind?_eq_some hf)
        have hc1 : ConnsInv (mapSet g.connections frm (mapDelete im dir)) :=
          connsInv_set h.2 (nodup_mapKeys_delete _ him)
        split
        · split
          · exact ⟨h.1, hc1⟩
          · split
            · exact ⟨h.1, hc1⟩
            · next tm heq =>
                have htm : (mapKeys tm).Nodup :=
                  hc1.2 (connection.target, tm) (mem_of_mapFind?_eq_some heq)
                split
                · exact ⟨h.1, connsInv_set hc1 (nodup_mapKeys_delete _ htm)⟩
                · exact ⟨h.1, hc1⟩
        · exact ⟨h.1, hc1⟩
  · simp only [h1, Bool.not_true, Bool.not_false, Bool.false_eq_true, if_false, if_true]
    exact h

theorem inv_setGate {g : GraphState} (h : Inv g) (frm dir : String) (gate : Gate) :
    Inv (setGate g frm dir gate).1 := by
  unfold setGate
  cases hf : mapFind? g.connections frm with
  | none => simp only [hf]; exact h
  | some im =>
    simp only [hf]
    cases hd : mapFind? im dir with
    | none => simp only [hd]; exact h
    | some c =>
      simp only [hd]
      have him := h.2.2 (frm, im) (mem_of_mapFind?_eq_some hf)
      exact ⟨h.1, connsInv_set h.2 (nodup_mapKeys_set _ _ him)⟩

theorem inv_updateGate {g : GraphState} (h : Inv g) (frm dir : String)
    (u : GateUpdates) : Inv (updateGate g frm dir u).1 := by
  unfold updateGate
  cases hf : mapFind? g.connections frm with
  | none => simp only [hf]; exact h
  | some im =>
    simp only [hf]
    cases hd : mapFind? im dir with
    | none => simp only [hd]; exact h
    | some c =>
      simp only [hd]
      cases hg : c.gate with
      | none => simp only [hg]; exact h
      | some gt =>
        simp only [hg]
        have him := h.2.2 (frm, im) (mem_of_mapFind?_eq_some hf)
        exact ⟨h.1, connsInv_set h.2 (nodup_mapKeys_set _ _ him)⟩

theorem inv_removeGate {g : GraphState} (h : Inv g) (frm dir : String) :
    Inv (removeGate g frm dir).1 := by
  unfold removeGate
  cases hf : mapFind? g.connections frm with
  | none => simp only [hf]; exact h
  | some im =>
    simp only [hf]
    cases hd : mapFind? im dir with
    | none => simp only [hd]; exact h
    | some c =>
      simp only [hd]
      cases hg : c.gate with
      | none => simp only [hg]; exact h
      | some gt =>
        simp only [hg]
        have him := h.2.2 (frm, im) (mem_of_mapFind?_eq_some hf)
        exact ⟨h.1, connsInv_set h.2 (nodup_mapKeys_set _ _ him)⟩

theorem inv_setZone {g : GraphState} (h : Inv g) (n z : String) :
    Inv (setZone g n z).1 := by
  unfold setZone
  cases hf : mapFind? g.nodes n with
  | none => exact h
  | some nd =>
    have hnd := h.1.2 (n, nd) (mem_of_mapFind?_eq_some hf)
    refine ⟨⟨nodup_mapKeys_set _ _ h.1.1, ?_⟩, h.2⟩
    intro p hp
    rcases mem_of_mem_mapSet hp with rfl | hpm
    · exact ⟨hnd.1, hnd.2.1, hnd.2.2.1, hnd.2.2.2⟩
    · exact h.1.2 p hpm

theorem inv_removeZone {g : GraphState} (h : Inv g) (n : String) :
    Inv (removeZone g n) := by
  unfold removeZone
  cases hf : mapFind? g.nodes n with
  | none => exact h
  | some nd =>
    have hnd := h.1.2 (n, nd) (mem_of_mapFind?_eq_some hf)
    refine ⟨⟨nodup_mapKeys_set _ _ h.1.1, ?_⟩, h.2⟩
    intro p hp
    rcases mem_of_mem_mapSet hp with rfl | hpm
    · exact ⟨hnd.1, hnd.2.1, hnd.2.2.1, hnd.2.2.2⟩
    · exact h.1.2 p hpm

theorem inv_deserializeNodes (L : List (String × NodeData)) {g : GraphState}
    (h : Inv g) : Inv (deserializeNodes g L).1 := by
  induction L generalizing g with
  | nil => exact h
  | cons p rest ih =>
    obtain ⟨id, nd⟩ := p
    rcases hc : createNode g id (nodeCreateOpts nd) with ⟨g1, e⟩
    have h1 : Inv g1 := by
      have h2 := inv_createNode h id (nodeCreateOpts nd)
      rw [hc] at h2
      exact h2
    cases e with
    | some err =>
      simp only [deserializeNodes, hc]
      exact h1
    | none =>
      by_cases hz : strTruthy nd.zone = true
      · rcases hs : setZone g1 id (nd.zone.getD "") with ⟨g2, e2⟩
        have h2 : Inv g2 := by
          have h3 := inv_setZone h1 id (nd.zone.getD "")
          rw [hs] at h3
          exact h3
        cases e2 with
        | some err =>
          simp only [deserializeNodes, hc]
          rw [if_pos hz]
          simp only [hs]
          exact h2
        | none =>
          simp only [deserializeNodes, hc]
          rw [if_pos hz]
          simp only [hs]
          exact ih h2
      · simp only [deserializeNodes, hc]
        rw [if_neg hz]
        exact ih h1

theorem connsInv_installFold (frm : String) (im : List (String × ConnectionData))
    {conns : SMap String (SMap String InternalConnection)} (h : ConnsInv conns) :
    ConnsInv (im.foldl (fun acc q => setConn acc frm q.1 (deserializeConn q.1 q.2)) conns) := by
  induction im generalizing conns with
  | nil => exact h
  | cons q rest ih => exact ih (connsInv_setConn h frm q.1 _)

theorem connsInv_deserializeConns (entries : List (String × SMap String ConnectionData))
    {conns : SMap String (SMap String InternalConnection)} (h : ConnsInv conns) :
    ConnsInv (deserializeConns conns entries) := by
  induction entries generalizing conns with
  | nil => exact h
  | cons p rest ih =>
    obtain ⟨frm, im⟩ := p
    exact ih (connsInv_installFold frm im h)

theorem inv_emptyGraph : Inv emptyGraph := by
  refine ⟨⟨List.nodup_nil, ?_⟩, ⟨List.nodup_nil, ?_⟩⟩ <;> intro p hp <;> cases hp

theorem inv_deserialize (g : GraphState) (data : SerializedGraph) :
    Inv (deserialize g data).1 := by
  rcases hn : deserializeNodes { nodes := [], connections := [], tileIndex := [] }
    data.nodes with ⟨g1, e⟩
  have h1 : Inv g1 := by
    have h2 := inv_deserializeNodes data.nodes
      (g := { nodes := [], connections := [], tileIndex := [] }) inv_emptyGraph
    rw [hn] at h2
    exact h2
  cases e with
  | some err =>
    simp only [deserialize, hn]
    exact h1
  | none =>
    simp only [deserialize, hn]
    exact ⟨h1.1, connsInv_deserializeConns data.connections h1.2⟩

theorem reachable_inv {g : GraphState} (h : Reachable g) : Inv g := by
  induction h with
  | empty => exact inv_emptyGraph
  | createNode g id opts _ ih => exact inv_createNode ih id opts
  | removeNode g id _ ih => exact inv_removeNode ih id
  | connect g frm dir tgt opts _ ih => exact inv_connect ih frm dir tgt opts
  | disconnect g frm dir ob _ ih => exact inv_disconnect ih frm dir ob
  | setGate g frm dir gate _ ih => exact inv_setGate ih frm dir gate
  | updateGate g frm dir u _ ih => exact inv_updateGate ih frm dir u
  | removeGate g frm dir _ ih => exact inv_removeGate ih frm dir
  | setZone g n z _ ih => exact inv_setZone ih n z
  | removeZone g n _ ih => exact inv_removeZone ih n
  | deserialize g data _ _ => exact inv_deserialize g data

/-! ## Claim C3: node-side round trip -/

theorem listMap_eq_self {α : Type} {f : α → α} :
    ∀ {l : List α}, (∀ a ∈ l, f a = a) → l.map f = l
  | [], _ => rfl
  | a :: rest, h => by
      rw [List.map_cons, h a (List.mem_cons_self _ _),
        listMap_eq_self (fun b hb => h b (List.mem_cons_of_mem _ hb))]

theorem safeCopy_eq_self {m : SMap String MetaValue}
    (h : ∀ q ∈ m, q.1 ∉ FORBIDDEN_KEYS) : safeCopy m = m :=
  List.filter_eq_self.mpr (fun q hq => decide_eq_true (h q hq))

theorem metaClean_no_forbidden {m : SMap String MetaValue} (h : MetaClean m) :
    ∀ q ∈ m, q.1 ∉ FORBIDDEN_KEYS := by
  intro q hq hf
  apply h q hq
  simp only [FORBIDDEN_KEYS, List.mem_cons, List.not_mem_nil, or_false] at hf
  simp only [BADKEYS, List.mem_cons, List.not_mem_nil, or_false]
  tauto

theorem metaClean_key_notin {m : SMap String MetaValue} (h : MetaClean m)
    (k : String) (hk : k ∈ BADKEYS) : k ∉ mapKeys m := by
  intro hkm
  rcases List.mem_map.mp hkm with ⟨q, hq, rfl⟩
  exact h q hq hk

theorem createNode_metadata_roundtrip {md : SMap String MetaValue} (h : MetaClean md) :
    mapDelete (mapDelete (safeCopy (safeCopy md)) "tiles") "layer" = md := by
  rw [safeCopy_eq_self (metaClean_no_forbidden h),
    safeCopy_eq_self (metaClean_no_forbidden h),
    mapDelete_eq_self (metaClean_key_notin h "tiles" (by simp [BADKEYS])),
    mapDelete_eq_self (metaClean_key_notin h "layer" (by simp [BADKEYS]))]

theorem tiles_normalize_roundtrip {tl : Option (List TilePosition)} (h : TilesNorm tl)
    (layer : Int) : tl.map (List.map (normalizeTile layer)) = tl := by
  cases tl with
  | none => rfl
  | some ts =>
    have h2 : ∀ t ∈ ts, normalizeTile layer t = t := by
      intro t ht
      have hs := h t (by simpa using ht)
      rcases t with ⟨x, y, lay⟩
      cases lay with
      | none => simp at hs
      | some l => rfl
    rw [show (some ts).map (List.map (normalizeTile layer)) =
      some (ts.map (normalizeTile layer)) from rfl, listMap_eq_self h2]

theorem createNode_success_parts {g : GraphState} {id : String}
    (opts : CreateNodeOptions) (hid : ¬ id = "")
    (hc : mapContains g.nodes id = false) :
    (createNode g id opts).2 = none ∧
    (createNode g id opts).1.nodes = mapSet g.nodes id
      { id := id,
        metadata := mapDelete (mapDelete (safeCopy opts.extra) "tiles") "layer",
        tiles := opts.tiles.map (List.map (normalizeTile (opts.layer.getD 1))),
        layer := opts.layer.getD 1, zone := none } := by
  unfold createNode
  rw [if_neg hid, hc]
  exact ⟨rfl, rfl⟩

/-- A serialized node entry that `deserialize` can rebuild verbatim. -/
def GoodNodeEntry (p : String × NodeData) : Prop :=
  p.1 ≠ "" ∧ p.2.id = p.1 ∧ MetaClean p.2.metadata ∧ TilesNorm p.2.tiles ∧
    p.2.zone ≠ some ""

theorem createNode_rebuild {g : GraphState} {id : String} {nd : NodeData}
    (hid : id ≠ "") (hfresh : id ∉ mapKeys g.nodes) (hnid : nd.id = id)
    (hmc : MetaClean nd.metadata) (htn : TilesNorm nd.tiles) :
    (createNode g id (nodeCreateOpts nd)).2 = none ∧
    (createNode g id (nodeCreateOpts nd)).1.nodes =
      g.nodes ++ [(id, { nd with zone := none })] ∧
    (createNode g id (nodeCreateOpts nd)).1.connections = g.connections := by
  have hcontains : mapContains g.nodes id = false := by
    unfold mapContains
    rw [mapFind?_eq_none_iff.mpr hfresh]
    rfl
  have hparts := createNode_success_parts (g := g) (nodeCreateOpts nd) hid hcontains
  refine ⟨hparts.1, ?_, createNode_connections g id (nodeCreateOpts nd)⟩
  rw [hparts.2, mapSet_eq_append _ hfresh]
  simp only [nodeCreateOpts, Option.getD_some]
  rw [createNode_metadata_roundtrip hmc, tiles_normalize_roundtrip htn, ← hnid]

theorem deserializeNodes_builds (L : List (String × NodeData)) :
    ∀ (g : GraphState), (∀ p ∈ L, GoodNodeEntry p) → (mapKeys L).Nodup →
      (∀ k ∈ mapKeys L, k ∉ mapKeys g.nodes) →
      (deserializeNodes g L).2 = none ∧
      (deserializeNodes g L).1.nodes = g.nodes ++ L := by
  induction L with
  | nil =>
    intro g _ _ _
    refine ⟨rfl, ?_⟩
    simp [deserializeNodes]
  | cons p rest ih =>
    intro g hgood hnodup hdisj
    obtain ⟨id, nd⟩ := p
    have hgoodh := hgood (id, nd) (List.mem_cons_self _ _)
    have hid : id ≠ "" := hgoodh.1
    have hnid : nd.id = id := hgoodh.2.1
    have hmc : MetaClean nd.metadata := hgoodh.2.2.1
    have htn : TilesNorm nd.tiles := hgoodh.2.2.2.1
    have hzne : nd.zone ≠ some "" := hgoodh.2.2.2.2
    have hfresh : id ∉ mapKeys g.nodes := hdisj id (by simp [mapKeys])
    have hrebuild := createNode_rebuild (g := g) hid hfresh hnid hmc htn
    rcases hc : createNode g id (nodeCreateOpts nd) with ⟨g1, e⟩
    have he : e = none := by
      have h2 := hrebuild.1
      rw [hc] at h2
      exact h2
    subst he
    have hg1nodes : g1.nodes = g.nodes ++ [(id, { nd with zone := none })] := by
      have h2 := hrebuild.2.1
      rw [hc] at h2
      exact h2
    have hkeys1 : mapKeys g1.nodes = mapKeys g.nodes ++ [id] := by
      rw [hg1nodes]
      simp [mapKeys]
    have hkeyscons : mapKeys ((id, nd) :: rest) = id :: mapKeys rest := rfl
    rw [hkeyscons] at hnodup
    have hnodup2 := List.nodup_cons.mp hnodup
    have hgood2 : ∀ p ∈ rest, GoodNodeEntry p :=
      fun p hp => hgood p (List.mem_cons_of_mem _ hp)
    have hdisj0 : ∀ k ∈ mapKeys rest, k ∉ mapKeys g.nodes := by
      intro k hk
      exact hdisj k (by rw [hkeyscons]; exact List.mem_cons_of_mem _ hk)
    have hdisj2 : ∀ k ∈ mapKeys rest, k ∉ mapKeys g1.nodes := by
      intro k hk
      rw [hkeys1]
      simp only [List.mem_append, List.mem_singleton]
      rintro (hx | rfl)
      · exact hdisj0 k hk hx
      · exact hnodup2.1 hk
    rcases nd with ⟨nid, nmd, ntl, nly, nzo⟩
    cases hzo : nzo with
    | none =>
      subst hzo
      have hrest := ih g1 hgood2 hnodup2.2 hdisj2
      simp only [deserializeNodes, hc, strTruthy, Bool.false_eq_true, if_false]
      refine ⟨hrest.1, ?_⟩
      rw [hrest.2, hg1nodes, List.append_assoc]
      rfl
    | some z =>
      subst hzo
      have hz2 : z ≠ "" := fun hz3 => hzne (by rw [hz3])
      have hstr : strTruthy (some z) = true := by
        simp [strTruthy, hz2]
      have hfind1 : mapFind? g1.nodes id =
          some ⟨nid, nmd, ntl, nly, none⟩ := by
        rw [hg1nodes]
        rw [mapFind?_append_right (mapFind?_eq_none_iff.mpr hfresh)]
        exact mapFind?_singleton_self _ _
      have hsz : setZone g1 id ((some z).getD "") =
          ({ g1 with nodes := mapSet g1.nodes id ⟨nid, nmd, ntl, nly, some z⟩ }, none) := by
        unfold setZone
        rw [hfind1]
        rfl
      have hg2nodes : mapSet g1.nodes id (⟨nid, nmd, ntl, nly, some z⟩ : NodeData) =
          g.nodes ++ [(id, (⟨nid, nmd, ntl, nly, some z⟩ : NodeData))] := by
        rw [hg1nodes, mapSet_append_self _ _ hfresh]
      have hdisj3 : ∀ k ∈ mapKeys rest,
          k ∉ mapKeys (mapSet g1.nodes id (⟨nid, nmd, ntl, nly, some z⟩ : NodeData)) := by
        intro k hk
        rw [hg2nodes]
        simp only [mapKeys, List.map_append, List.mem_append, List.map_cons,
          List.map_nil, List.mem_singleton]
        rintro (hx | rfl)
        · exact hdisj0 k hk (by simpa [mapKeys] using hx)
        · exact hnodup2.1 hk
      have hrest := ih { g1 with nodes := mapSet g1.nodes id ⟨nid, nmd, ntl, nly, some z⟩ }
        hgood2 hnodup2.2 hdisj3
      simp only [deserializeNodes, hc, hstr, if_true, hsz]
      refine ⟨hrest.1, ?_⟩
      rw [hrest.2]
      show mapSet g1.nodes id ⟨nid, nmd, ntl, nly, some z⟩ ++ rest = _
      rw [hg2nodes, List.append_assoc]
      rfl

/-! ## Claim C3: connection-side round trip -/

theorem mapSet_eq_self {α β : Type} [DecidableEq α] {m : SMap α β} {k : α} {v : β}
    (h : mapFind? m k = some v) : mapSet m k v = m := by
  induction m with
  | nil => simp at h
  | cons q rest ih =>
    rcases q with ⟨k0, v0⟩
    by_cases h0 : k0 = k
    · rw [mapFind?_cons, if_pos h0] at h
      injection h with h
      rw [mapSet, if_pos h0, h0, h]
    · rw [mapFind?_cons, if_neg h0] at h
      rw [mapSet, if_neg h0, ih h]

/-- The internal connections rebuilt from one serialized inner map. -/
def desnapInner (im : SMap String ConnectionData) : SMap String InternalConnection :=
  mapVals (fun d s => deserializeConn d s) im

theorem installInner_fold (frm : String) :
    ∀ (im : List (String × ConnectionData))
      (conns : SMap String (SMap String InternalConnection))
      (cur : SMap String InternalConnection),
      mapFind? conns frm = some cur → (mapKeys im).Nodup →
      (∀ k ∈ mapKeys im, k ∉ mapKeys cur) →
      im.foldl (fun acc q => setConn acc frm q.1 (deserializeConn q.1 q.2)) conns =
        mapSet conns frm (cur ++ desnapInner im) := by
  intro im
  induction im with
  | nil =>
    intro conns cur hfind _ _
    show conns = mapSet conns frm (cur ++ [])
    rw [List.append_nil, mapSet_eq_self hfind]
  | cons q rest ih =>
    intro conns cur hfind hnodup hdisj
    obtain ⟨d, s⟩ := q
    have hkeyscons : mapKeys ((d, s) :: rest) = d :: mapKeys rest := rfl
    rw [hkeyscons] at hnodup
    have hnodup2 := List.nodup_cons.mp hnodup
    have hd_not : d ∉ mapKeys cur := hdisj d (by simp [mapKeys])
    rw [List.foldl_cons]
    have hset : setConn conns frm d (deserializeConn d s) =
        mapSet conns frm (mapSet cur d (deserializeConn d s)) := by
      unfold setConn
      rw [hfind]
    have hinner : mapSet cur d (deserializeConn d s) =
        cur ++ [(d, deserializeConn d s)] := mapSet_eq_append _ hd_not
    rw [hset, hinner]
    have hfind2 : mapFind? (mapSet conns frm (cur ++ [(d, deserializeConn d s)])) frm =
        some (cur ++ [(d, deserializeConn d s)]) := mapFind?_set_self _ _ _
    have hdisj2 : ∀ k ∈ mapKeys rest,
        k ∉ mapKeys (cur ++ [(d, deserializeConn d s)]) := by
      intro k hk
      simp only [mapKeys, List.map_append, List.mem_append, List.map_cons, List.map_nil,
        List.mem_singleton]
      rintro (hx | rfl)
      · exact hdisj k (by rw [hkeyscons]; exact List.mem_cons_of_mem _ hk) hx
      · exact hnodup2.1 hk
    rw [ih _ _ hfind2 hnodup2.2 hdisj2, mapSet_mapSet, List.append_assoc]
    rfl

/-- The connection table produced by restoring a serialized connection table:
sources whose serialized inner map is empty get no entry at all. -/
def rebuildConns (S : List (String × SMap String ConnectionData)) :
    SMap String (SMap String InternalConnection) :=
  (S.filter (fun p => !p.2.isEmpty)).map (fun p => (p.1, desnapInner p.2))

theorem deserializeConns_builds :
    ∀ (S : List (String × SMap String ConnectionData))
      (conns0 : SMap String (SMap String InternalConnection)),
      (mapKeys S).Nodup → (∀ p ∈ S, (mapKeys p.2).Nodup) →
      (∀ k ∈ mapKeys S, k ∉ mapKeys conns0) →
      deserializeConns conns0 S = conns0 ++ rebuildConns S := by
  intro S
  induction S with
  | nil =>
    intro conns0 _ _ _
    show conns0 = conns0 ++ []
    rw [List.append_nil]
  | cons p rest ih =>
    intro conns0 hnodup hinner hdisj
    obtain ⟨frm, im⟩ := p
    have hkeyscons : mapKeys ((frm, im) :: rest) = frm :: mapKeys rest := rfl
    rw [hkeyscons] at hnodup
    have hnodup2 := List.nodup_cons.mp hnodup
    have hfrm_not : frm ∉ mapKeys conns0 := hdisj frm (by simp [mapKeys])
    have hinner2 : ∀ p ∈ rest, (mapKeys p.2).Nodup :=
      fun p hp => hinner p (List.mem_cons_of_mem _ hp)
    have hdisj0 : ∀ k ∈ mapKeys rest, k ∉ mapKeys conns0 := by
      intro k hk
      exact hdisj k (by rw [hkeyscons]; exact List.mem_cons_of_mem _ hk)
    cases im with
    | nil =>
      show deserializeConns conns0 rest = conns0 ++ rebuildConns ((frm, []) :: rest)
      rw [ih conns0 hnodup2.2 hinner2 hdisj0]
      rfl
    | cons q im2 =>
      obtain ⟨d, s⟩ := q
      have himnodup := hinner ((frm, (d, s) :: im2)) (List.mem_cons_self _ _)
      have himnodup2 :=
        List.nodup_cons.mp (show (d :: mapKeys im2).Nodup from himnodup)
      have hsetfirst : setConn conns0 frm d (deserializeConn d s) =
          conns0 ++ [(frm, [(d, deserializeConn d s)])] := by
        unfold setConn
        rw [mapFind?_eq_none_iff.mpr hfrm_not]
        exact mapSet_eq_append _ hfrm_not
      have hfind2 : mapFind? (conns0 ++ [(frm, [(d, deserializeConn d s)])]) frm =
          some [(d, deserializeConn d s)] := by
        rw [mapFind?_append_right (mapFind?_eq_none_iff.mpr hfrm_not)]
        exact mapFind?_singleton_self _ _
      have hdisj1 : ∀ k ∈ mapKeys im2, k ∉ mapKeys [(d, deserializeConn d s)] := by
        intro k hk
        simp only [mapKeys, List.map_cons, List.map_nil, List.mem_singleton]
        rintro rfl
        exact himnodup2.1 hk
      have hfold : ((d, s) :: im2).foldl
          (fun acc q => setConn acc frm q.1 (deserializeConn q.1 q.2)) conns0 =
          conns0 ++ [(frm, desnapInner ((d, s) :: im2))] := by
        rw [List.foldl_cons, hsetfirst,
          installInner_fold frm im2 _ _ hfind2 himnodup2.2 hdisj1,
          mapSet_append_self _ _ hfrm_not]
        rfl
      show deserializeConns (((d, s) :: im2).foldl
          (fun acc q => setConn acc frm q.1 (deserializeConn q.1 q.2)) conns0) rest =
        conns0 ++ rebuildConns ((frm, (d, s) :: im2) :: rest)
      rw [hfold]
      have hdisj2 : ∀ k ∈ mapKeys rest,
          k ∉ mapKeys (conns0 ++ [(frm, desnapInner ((d, s) :: im2))]) := by
        intro k hk
        simp only [mapKeys, List.map_append, List.mem_append, List.map_cons, List.map_nil,
          List.mem_singleton]
        rintro (hx | rfl)
        · exact hdisj0 k hk (by simpa [mapKeys] using hx)
        · exact hnodup2.1 hk
      rw [ih _ hnodup2.2 hinner2 hdisj2, List.append_assoc]
      rfl

theorem rebuildConns_cons (frm : String) (im : SMap String ConnectionData)
    (rest : List (String × SMap String ConnectionData)) :
    rebuildConns ((frm, im) :: rest) =
      if im.isEmpty then rebuildConns rest
      else (frm, desnapInner im) :: rebuildConns rest := by
  unfold rebuildConns
  rw [List.filter_cons]
  cases he : im.isEmpty with
  | true => simp [he]
  | false => simp [he]

theorem mem_mapKeys_rebuildConns {S : List (String × SMap String ConnectionData)}
    {f : String} (h : f ∈ mapKeys (rebuildConns S)) : f ∈ mapKeys S := by
  induction S with
  | nil => exact absurd h (by simp [rebuildConns])
  | cons p rest ih =>
    obtain ⟨frm, im⟩ := p
    rw [rebuildConns_cons] at h
    rw [mapKeys_cons]
    split at h
    · exact List.mem_cons_of_mem _ (ih h)
    · have h2 : f ∈ frm :: mapKeys (rebuildConns rest) := h
      rcases List.mem_cons.mp h2 with rfl | h3
      · exact List.mem_cons_self _ _
      · exact List.mem_cons_of_mem _ (ih h3)

theorem rebuild_find? (f : String) :
    ∀ {S : List (String × SMap String ConnectionData)}, (mapKeys S).Nodup →
      mapFind? (rebuildConns S) f =
        (mapFind? S f).bind
          (fun im => if im.isEmpty then none else some (desnapInner im)) := by
  intro S
  induction S with
  | nil => intro _; rfl
  | cons p rest ih =>
    intro hnodup
    obtain ⟨frm, im⟩ := p
    have hnodup2 := List.nodup_cons.mp (show (frm :: mapKeys rest).Nodup from hnodup)
    rw [rebuildConns_cons]
    cases im with
    | nil =>
      rw [if_pos (show ([] : SMap String ConnectionData).isEmpty = true from rfl)]
      by_cases hf : frm = f
      · subst hf
        have hr : mapFind? ((frm, ([] : SMap String ConnectionData)) :: rest) frm =
            some [] := by rw [mapFind?_cons, if_pos rfl]
        rw [hr, Option.some_bind,
          if_pos (show ([] : SMap String ConnectionData).isEmpty = true from rfl)]
        exact mapFind?_eq_none_iff.mpr
          (fun hmem => hnodup2.1 (mem_mapKeys_rebuildConns hmem))
      · have hr : mapFind? ((frm, ([] : SMap String ConnectionData)) :: rest) f =
            mapFind? rest f := by rw [mapFind?_cons, if_neg hf]
        rw [hr]
        exact ih hnodup2.2
    | cons q im2 =>
      have hne : ¬ ((q :: im2 : SMap String ConnectionData).isEmpty = true) := by simp
      rw [if_neg hne]
      by_cases hf : frm = f
      · subst hf
        have hr : mapFind? ((frm, q :: im2) :: rest) frm = some (q :: im2) := by
          rw [mapFind?_cons, if_pos rfl]
        rw [hr, Option.some_bind, if_neg hne, mapFind?_cons, if_pos rfl]
      · have hr : mapFind? ((frm, q :: im2) :: rest) f = mapFind? rest f := by
          rw [mapFind?_cons, if_neg hf]
        rw [hr, mapFind?_cons, if_neg hf]
        exact ih hnodup2.2

/-- The serialized snapshot of one inner connection map (`serialize`'s inner
loop). -/
def snapInner (im : SMap String InternalConnection) : SMap String ConnectionData :=
  mapVals serializeConn im

/-- The serialized snapshot of the whole connection table (`serialize`'s outer
loop). -/
def snapOuter (conns : SMap String (SMap String InternalConnection)) :
    SMap String (SMap String ConnectionData) :=
  mapVals (fun _ im => snapInner im) conns

theorem snap_desnap_snap (im : SMap String InternalConnection) :
    snapInner (desnapInner (snapInner im)) = snapInner im := by
  induction im with
  | nil => rfl
  | cons q rest ih =>
    obtain ⟨d, c⟩ := q
    exact congrArg (List.cons (d, serializeConn d c)) ih

/-- Serialized connection stored at `(from, direction)` of a snapshot. -/
def sgConnAt (s : SerializedGraph) (f d : String) : Option ConnectionData :=
  (mapFind? s.connections f).bind (fun im => mapFind? im d)

/-- All `(from, direction)` addresses present in a snapshot. -/
def sgConnKeys (s : SerializedGraph) : List (String × String) :=
  (s.connections.map (fun p => p.2.map (fun q => (p.1, q.1)))).flatten

/-- Structural identity of two serialized graphs: the same node snapshot under
every node id and the same connection snapshot at every `(from, direction)`
address (insertion order and empty per-source tables are not structure). -/
def structEq (s1 s2 : SerializedGraph) : Bool :=
  ((mapKeys s1.nodes ++ mapKeys s2.nodes).all
    (fun k => decide (mapFind? s1.nodes k = mapFind? s2.nodes k))) &&
  ((sgConnKeys s1 ++ sgConnKeys s2).all
    (fun p => decide (sgConnAt s1 p.1 p.2 = sgConnAt s2 p.1 p.2)))

theorem structEq_of_pointwise {s1 s2 : SerializedGraph}
    (hn : ∀ k, mapFind? s1.nodes k = mapFind? s2.nodes k)
    (hc : ∀ f d, sgConnAt s1 f d = sgConnAt s2 f d) :
    structEq s1 s2 = true := by
  unfold structEq
  rw [Bool.and_eq_true]
  constructor
  · rw [List.all_eq_true]
    intro k _
    exact decide_eq_true (hn k)
  · rw [List.all_eq_true]
    intro p _
    exact decide_eq_true (hc p.1 p.2)

theorem roundtrip_core {g : GraphState} (hInv : Inv g)
    (hz : ∀ p ∈ g.nodes, p.2.zone ≠ some "") :
    (deserialize g (serialize g)).2 = none ∧
    (deserialize g (serialize g)).1.nodes = g.nodes ∧
    (deserialize g (serialize g)).1.connections =
      rebuildConns (snapOuter g.connections) := by
  obtain ⟨hnInv, hcInv⟩ := hInv
  have hgood : ∀ p ∈ g.nodes, GoodNodeEntry p := by
    intro p hp
    have h := hnInv.2 p hp
    exact ⟨h.1, h.2.1, h.2.2.1, h.2.2.2, hz p hp⟩
  have hdisj : ∀ k ∈ mapKeys g.nodes,
      k ∉ mapKeys ({ nodes := [], connections := [], tileIndex := [] } :
        GraphState).nodes := by
    intro k _ hk
    exact absurd hk (List.not_mem_nil k)
  have hbuilt := deserializeNodes_builds g.nodes
    { nodes := [], connections := [], tileIndex := [] } hgood hnInv.1 hdisj
  rcases hn : deserializeNodes { nodes := [], connections := [], tileIndex := [] }
    (serialize g).nodes with ⟨g1, e⟩
  have hn2 : deserializeNodes { nodes := [], connections := [], tileIndex := [] }
      g.nodes = (g1, e) := hn
  rw [hn2] at hbuilt
  obtain ⟨he, hnodes⟩ := hbuilt
  have he2 : e = none := he
  subst he2
  have hg1c : g1.connections = ([] : SMap String (SMap String InternalConnection)) := by
    have h2 := deserializeNodes_connections g.nodes
      { nodes := [], connections := [], tileIndex := [] }
    rw [hn2] at h2
    exact h2
  have hg1n : g1.nodes = g.nodes := hnodes
  have hSnodup : (mapKeys (snapOuter g.connections)).Nodup := by
    have hk : mapKeys (snapOuter g.connections) = mapKeys g.connections :=
      mapKeys_mapVals _ _
    rw [hk]
    exact hcInv.1
  have hSinner : ∀ p ∈ snapOuter g.connections, (mapKeys p.2).Nodup := by
    intro p hp
    have hp2 : p ∈ mapVals (fun _ im => snapInner im) g.connections := hp
    rcases mem_mapVals hp2 with ⟨q, hq, rfl⟩
    have hk : mapKeys (snapInner q.2) = mapKeys q.2 := mapKeys_mapVals _ _
    show (mapKeys (snapInner q.2)).Nodup
    rw [hk]
    exact hcInv.2 q hq
  have hSdisjoint : ∀ k ∈ mapKeys (snapOuter g.connections),
      k ∉ mapKeys g1.connections := by
    rw [hg1c]
    intro k _ hk
    exact absurd hk (List.not_mem_nil k)
  have hDC : deserializeConns g1.connections (snapOuter g.connections) =
      g1.connections ++ rebuildConns (snapOuter g.connections) :=
    deserializeConns_builds (snapOuter g.connections) g1.connections
      hSnodup hSinner hSdisjoint
  refine ⟨?_, ?_, ?_⟩
  · show (deserialize g (serialize g)).2 = none
    simp only [deserialize, hn]
  · show (deserialize g (serialize g)).1.nodes = g.nodes
    simp only [deserialize, hn]
    exact hg1n
  · show (deserialize g (serialize g)).1.connections =
      rebuildConns (snapOuter g.connections)
    simp only [deserialize, hn]
    show deserializeConns g1.connections (serialize g).connections =
      rebuildConns (snapOuter g.connections)
    have hsc : (serialize g).connections = snapOuter g.connections := rfl
    rw [hsc, hDC, hg1c]
    rfl

/-- C3 (corrected): the serialization round trip is structure-preserving only
for API-reachable graphs none of whose nodes carries the empty-string zone:
for such `G`, `deserialize(serialize(G))` succeeds and a subsequent
`serialize()` is structurally identical to `serialize(G)` (same node snapshot
under every id, same connection snapshot at every `(from, direction)`).  A
node with `zone = ""` violates the claim: `deserialize` restores a zone only
when it is truthy, so the empty-string zone is silently dropped. -/
theorem claim_C3_roundtrip (g : GraphState) (hreach : Reachable g)
    (hz : ∀ p ∈ g.nodes, p.2.zone ≠ some "") :
    (deserialize g (serialize g)).2 = none ∧
    structEq (serialize (deserialize g (serialize g)).1) (serialize g) = true := by
  have hInv := reachable_inv hreach
  have hcore := roundtrip_core hInv hz
  refine ⟨hcore.1, ?_⟩
  apply structEq_of_pointwise
  · intro k
    show mapFind? (deserialize g (serialize g)).1.nodes k = mapFind? g.nodes k
    rw [hcore.2.1]
  · intro f d
    show sgConnAt (serialize (deserialize g (serialize g)).1) f d =
      sgConnAt (serialize g) f d
    unfold sgConnAt
    have hsc1 : (serialize (deserialize g (serialize g)).1).connections =
        snapOuter (rebuildConns (snapOuter g.connections)) := by
      show snapOuter (deserialize g (serialize g)).1.connections =
        snapOuter (rebuildConns (snapOuter g.connections))
      rw [hcore.2.2]
    have hsc2 : (serialize g).connections = snapOuter g.connections := rfl
    rw [hsc1, hsc2]
    have hSnodup : (mapKeys (snapOuter g.connections)).Nodup := by
      have hk : mapKeys (snapOuter g.connections) = mapKeys g.connections :=
        mapKeys_mapVals _ _
      rw [hk]
      exact hInv.2.1
    have h1 : mapFind? (snapOuter (rebuildConns (snapOuter g.connections))) f =
        (mapFind? (rebuildConns (snapOuter g.connections)) f).map
          (fun im => snapInner im) := mapFind?_mapVals _ _ f
    have h2 : mapFind? (snapOuter g.connections) f =
        (mapFind? g.connections f).map (fun im => snapInner im) :=
      mapFind?_mapVals _ _ f
    have h3 := rebuild_find? f hSnodup
    rw [h1, h3, h2]
    cases hA : mapFind? g.connections f with
    | none => rfl
    | some im0 =>
      cases im0 with
      | nil => rfl
      | cons q im2 =>
        show mapFind? (snapInner (desnapInner (snapInner (q :: im2)))) d =
          mapFind? (snapInner (q :: im2)) d
        rw [snap_desnap_snap]

/-- A single-node graph whose node was assigned the empty-string zone through
the public API. -/
def c3ZoneGraph : GraphState :=
  (setZone (createNode emptyGraph "a" defaultCreateOpts).1 "a" "").1

/-- C3 counterexample: `c3ZoneGraph` is API-reachable and its node `a` carries
`zone = ""`; the round trip succeeds but drops the zone (the restored node has
`zone = none`), so the re-serialized snapshot is not structurally identical to
the original one. -/
theorem claim_C3_counterexample :
    Reachable c3ZoneGraph ∧
    ((mapFind? c3ZoneGraph.nodes "a").map (fun nd => nd.zone) = some (some "") ∧
     (deserialize c3ZoneGraph (serialize c3ZoneGraph)).2 = none ∧
     (mapFind? (deserialize c3ZoneGraph (serialize c3ZoneGraph)).1.nodes "a").map
       (fun nd => nd.zone) = some none ∧
     structEq (serialize (deserialize c3ZoneGraph (serialize c3ZoneGraph)).1)
       (serialize c3ZoneGraph) = false) := by
  constructor
  · show Reachable (setZone (createNode emptyGraph "a" defaultCreateOpts).1 "a" "").1
    exact Reachable.setZone _ "a" ""
      (Reachable.createNode emptyGraph "a" defaultCreateOpts Reachable.empty)
  · decide

theorem c1Graph_reachable : Reachable c1Graph :=
  Reachable.connect _ "c" "NORTH" "d" _
    (Reachable.connect _ "a" "EAST" "c" _
      (Reachable.connect _ "b" "NORTH" "d" _
        (Reachable.connect _ "a" "NORTH" "b" _
          (Reachable.createNode _ "d" _
            (Reachable.createNode _ "c" _
              (Reachable.createNode _ "b" _
                (Reachable.createNode _ "a" _ Reachable.empty)))))))

theorem claim_C3_witness :
    (deserialize c1Graph (serialize c1Graph)).2 = none ∧
    structEq (serialize (deserialize c1Graph (serialize c1Graph)).1)
      (serialize c1Graph) = true :=
  claim_C3_roundtrip c1Graph c1Graph_reachable (by decide)

end Spatial
